import Mathlib

/-!
Verification development for the webmcp-extend tool-generation pipeline.

The definitions below are a shallow embedding of the TypeScript source:

* `src/src/session/session.ts` — the interactive session recorder
  (`sessionStart`/`sessionStep` state effects, `groupActionsIntoTools`,
  `inferPropertyName`, `toCamelCase`);
* `src/analysis/extract-dom.ts` — DOM extraction (`extractDOM`,
  `flattenAccessibilityTree`, `groupByRegion`, `extractFromHTML`,
  `parseHTMLAttributes`, `mergeHTMLElements`);
* `src/analysis/propose-tools.ts` — the agent-reply parser
  (`parseToolProposals`), together with a model of `JSON.parse`;
* `src/generator/generate-tools.ts` — the tool code generator
  (`generateToolFiles`, `generateZodSchema`, `generateJSCallBody`,
  `generateDOMActionBody`, `generateDOMStep`).

Effectful code (Playwright calls, file writes) is embedded as explicit
state passing: browser outcomes (page URL after an action, success flag,
timestamps) become parameters of the pure state-transition functions.
JavaScript regular-expression searches are embedded as explicit scanners
over `List Char` with the same match semantics on the inputs concerned.
JavaScript truthiness tests on optional strings (`if (x)`) are embedded
as "present and non-empty".
-/

namespace WebMCP

/-! ## Small JavaScript-semantics helpers -/

/-- Truthiness of an optional string: JS `if (x)` is false for `undefined`
and for the empty string. -/
def optTruthy : Option String → Bool
  | none => false
  | some s => !s.isEmpty

/-- JS template interpolation of a possibly-undefined string:
`undefined` prints as "undefined". -/
def optToJS : Option String → String
  | none => "undefined"
  | some s => s

/-- Word character of the JS regex class backslash-w: ASCII letters, digits,
underscore. -/
def wordChar (c : Char) : Bool :=
  c.isAlpha || c.isDigit || c = '_'

/-- Separator class of the regex `[-_\s]` used by `toCamelCase`. -/
def isSepChar (c : Char) : Bool :=
  c = '-' || c = '_' || c.isWhitespace

/-- Strip a literal (case-sensitive) off the front of a char list. -/
def stripLit : List Char → List Char → Option (List Char)
  | [], s => some s
  | _, [] => none
  | p :: ps, c :: cs => if p = c then stripLit ps cs else none

/-- Strip a literal off the front, comparing ASCII case-insensitively
(the JS regex flag `i`). -/
def stripLitCI : List Char → List Char → Option (List Char)
  | [], s => some s
  | _, [] => none
  | p :: ps, c :: cs => if p.toLower = c.toLower then stripLitCI ps cs else none

/-- Split a char list at the first case-insensitive occurrence of `needle`,
returning the part before it and the part after it.  `none` when `needle`
does not occur.  This is the lazy `[\s\S]*?` capture up to a literal. -/
def splitAtCI (needle : List Char) : List Char → Option (List Char × List Char)
  | [] => if needle.isEmpty then some ([], []) else none
  | c :: cs =>
    match stripLitCI needle (c :: cs) with
    | some rest => some ([], rest)
    | none =>
      match splitAtCI needle cs with
      | some (pre, post) => some (c :: pre, post)
      | none => none

/-- Split a char list at the first case-sensitive occurrence of `needle`. -/
def splitAtLit (needle : List Char) : List Char → Option (List Char × List Char)
  | [] => if needle.isEmpty then some ([], []) else none
  | c :: cs =>
    match stripLit needle (c :: cs) with
    | some rest => some ([], rest)
    | none =>
      match splitAtLit needle cs with
      | some (pre, post) => some (c :: pre, post)
      | none => none

/-- The apostrophe character, written by code point. -/
def quoteChar : Char := Char.ofNat 39

/-- JS `String.prototype.trim`: strip whitespace from both ends. -/
def jsTrim (s : String) : String :=
  String.mk (((s.data.dropWhile Char.isWhitespace).reverse.dropWhile
    Char.isWhitespace).reverse)

/-! ## Session recorder (src/src/session/session.ts)

`sessionStep` records one of seven actions; `groupActionsIntoTools` turns
the persisted action log into tool definitions at session close. -/

/-- The action vocabulary of `SessionStepOptions.action`. -/
inductive SessionAction where
  | click | fill | select | hover | scroll | wait | navigate
deriving DecidableEq, Repr

/-- The string form of a session action (used where the source
interpolates `entry.action` into text). -/
def SessionAction.asString : SessionAction → String
  | .click => "click"
  | .fill => "fill"
  | .select => "select"
  | .hover => "hover"
  | .scroll => "scroll"
  | .wait => "wait"
  | .navigate => "navigate"

/-- One recorded action (interface `ActionLogEntry`). -/
structure ActionLogEntry where
  stepIndex : Nat
  action : SessionAction
  selector : Option String
  value : Option String
  url : Option String
  toolName : Option String
  pageUrl : String
  screenshotPath : String
  timestamp : Nat
  success : Bool
  error : Option String
deriving DecidableEq, Repr

/-- Property record of the inferred input schema (`{ type, description }`). -/
structure PropertySchema where
  type : String
  description : String
deriving DecidableEq, Repr

/-- Inferred input schema of a session tool (`ToolFromActions.inputSchema`). -/
structure ActionsInputSchema where
  type : String
  properties : List (String × PropertySchema)
  required : List String
deriving DecidableEq, Repr

/-- A step of a derived session tool (interface `ToolActionStep`). -/
structure ToolActionStep where
  action : SessionAction
  selector : String
  inputProperty : Option String := none
  staticValue : Option String := none
  delay : Option Nat := none
deriving DecidableEq, Repr

/-- A tool derived from grouped session actions (interface `ToolFromActions`). -/
structure ToolFromActions where
  name : String
  steps : List ToolActionStep
  inputSchema : ActionsInputSchema
  urlPatterns : List String
deriving DecidableEq, Repr

/-- Regex `[attr=["\x27]?([^"\x27\]]+)` of `inferPropertyName`, tried at one
position: the literal `[attr=`, an optional quote, then a non-empty run of
characters outside `"`, `\x27`, `]`.  When the quote branch consumes a quote
but the capture would be empty, the backtracked no-quote branch would have to
start its capture on that (excluded) quote character, so the position fails. -/
def bracketAttrAt (lit : List Char) (s : List Char) : Option String :=
  match stripLit lit s with
  | none => none
  | some rest =>
    match rest with
    | [] => none
    | c :: cs =>
      if c = '"' || c = quoteChar then
        let cap := cs.takeWhile (fun d => !(d = '"' || d = quoteChar || d = ']'))
        if cap.isEmpty then none else some (String.mk cap)
      else
        let cap := (c :: cs).takeWhile (fun d => !(d = '"' || d = quoteChar || d = ']'))
        if cap.isEmpty then none else some (String.mk cap)

/-- Leftmost match of `bracketAttrAt` over the selector. -/
def bracketAttrValue (attr : String) : List Char → Option String
  | [] => none
  | c :: cs =>
    match bracketAttrAt ("[" ++ attr ++ "=").data (c :: cs) with
    | some v => some v
    | none => bracketAttrValue attr cs

/-- Regex `#([\w-]+)`: leftmost `#` followed by a non-empty run of word
characters or dashes. -/
def idTokenValue : List Char → Option String
  | [] => none
  | c :: cs =>
    if c = '#' then
      let cap := cs.takeWhile (fun d => wordChar d || d = '-')
      if cap.isEmpty then idTokenValue cs else some (String.mk cap)
    else idTokenValue cs

/-- Core of `toCamelCase`: the global replace of `[-_\s]+(.)?` by the
upper-cased following character.  The flag records a pending separator run
whose following character must be upper-cased. -/
def camelAux : Bool → List Char → List Char
  | _, [] => []
  | pending, c :: cs =>
    if isSepChar c then camelAux true cs
    else if pending then c.toUpper :: camelAux false cs
    else c :: camelAux false cs

/-- Final `replace(/^[A-Z]/, lower)` of `toCamelCase`. -/
def lowerFirst : List Char → List Char
  | [] => []
  | c :: cs => if c.isUpper then c.toLower :: cs else c :: cs

/-- Function `toCamelCase` of session.ts. -/
def toCamelCase (s : String) : String :=
  String.mk (lowerFirst (camelAux false s.data))

/-- Function `inferPropertyName` of session.ts: name attribute, else id,
else placeholder, else `<action>Value`. -/
def inferPropertyName (selector : String) (action : String) : String :=
  match bracketAttrValue "name" selector.data with
  | some v => toCamelCase v
  | none =>
    match idTokenValue selector.data with
    | some v => toCamelCase v
    | none =>
      match bracketAttrValue "placeholder" selector.data with
      | some v => toCamelCase v
      | none => action ++ "Value"

/-- The filter of `groupActionsIntoTools`: the loop skips an entry unless it
has a truthy tool name and succeeded (`if (!entry.toolName || !entry.success)
continue`). -/
def keptEntry (e : ActionLogEntry) : Bool :=
  optTruthy e.toolName && e.success

/-- Insertion into the `Map`-shaped accumulator of `groupActionsIntoTools`:
append to an existing group, else create a new group at the end (JS `Map`
iteration follows insertion order). -/
def toolMapInsert (m : List (String × List ActionLogEntry)) (name : String)
    (e : ActionLogEntry) : List (String × List ActionLogEntry) :=
  match m with
  | [] => [(name, [e])]
  | (n, es) :: rest =>
    if n = name then (n, es ++ [e]) :: rest
    else (n, es) :: toolMapInsert rest name e

/-- The first loop of `groupActionsIntoTools`: fold the log into groups. -/
def buildToolMap (m : List (String × List ActionLogEntry)) :
    List ActionLogEntry → List (String × List ActionLogEntry)
  | [] => m
  | e :: rest =>
    buildToolMap
      (if keptEntry e then toolMapInsert m (optToJS e.toolName) e else m) rest

/-- JS object assignment `props[k] = v`: overwrite keeps the first insertion
position; a new key goes at the end. -/
def recordUpsert (props : List (String × PropertySchema)) (k : String)
    (v : PropertySchema) : List (String × PropertySchema) :=
  match props with
  | [] => [(k, v)]
  | (k0, v0) :: rest =>
    if k0 = k then (k0, v) :: rest else (k0, v0) :: recordUpsert rest k v

/-- JS `Set.add` with iteration in insertion order. -/
def setAdd (xs : List String) (x : String) : List String :=
  if x ∈ xs then xs else xs ++ [x]

/-- Accumulator of the per-group loop of `groupActionsIntoTools`. -/
structure GroupAcc where
  steps : List ToolActionStep
  properties : List (String × PropertySchema)
  required : List String
  urlPatterns : List String
deriving Repr

/-- Body of the per-group loop of `groupActionsIntoTools`: record the page
URL; skip wait/navigate entries; for fill/select entries carrying a truthy
value, attach an inferred input property and register it as required. -/
def processEntry (acc : GroupAcc) (e : ActionLogEntry) : GroupAcc :=
  let acc := { acc with urlPatterns := setAdd acc.urlPatterns e.pageUrl }
  if e.action = SessionAction.wait ∨ e.action = SessionAction.navigate then acc
  else
    let sel := (e.selector).getD ""
    if (e.action = SessionAction.fill ∨ e.action = SessionAction.select)
        ∧ optTruthy e.value then
      let propName := inferPropertyName sel e.action.asString
      { acc with
        steps := acc.steps ++ [{ action := e.action, selector := sel,
                                 inputProperty := some propName }],
        properties := recordUpsert acc.properties propName
          { type := "string", description := "Value for " ++ optToJS e.selector },
        required := acc.required ++ [propName] }
    else
      { acc with steps := acc.steps ++ [{ action := e.action, selector := sel }] }

/-- Function `groupActionsIntoTools` of session.ts. -/
def groupActionsIntoTools (log : List ActionLogEntry) : List ToolFromActions :=
  (buildToolMap [] log).map (fun g =>
    let acc := g.2.foldl processEntry { steps := [], properties := [],
                                        required := [], urlPatterns := [] }
    { name := g.1, steps := acc.steps,
      inputSchema := { type := "object", properties := acc.properties,
                       required := acc.required },
      urlPatterns := acc.urlPatterns })

/-! ### Session state transitions (`sessionStart`, `sessionStep`)

The browser-driving parts of the two operations are external effects; their
observable results (the final page URL, the success flag, an error message,
a timestamp) enter the model as parameters.  The persisted state
(`session.json` plus `action-log.json`) is the model state. -/

/-- Persisted session state (interface `SessionState`). -/
structure SessionState where
  wsEndpoint : String
  goal : Option String
  currentUrl : String
  stepCount : Nat
  startedAt : Nat
  sessionDir : String
deriving DecidableEq, Repr

/-- The on-disk session files: `session.json` plus `action-log.json`. -/
structure SessionFiles where
  state : SessionState
  log : List ActionLogEntry
deriving DecidableEq, Repr

/-- Options of `sessionStep`. -/
structure SessionStepOptions where
  action : SessionAction
  selector : Option String := none
  value : Option String := none
  url : Option String := none
  toolName : Option String := none
deriving DecidableEq, Repr

/-- The browser-visible outcome of executing one step: whether
`executeAction` threw, the recorded error text, the page URL after the
action, and the entry timestamp. -/
structure StepOutcome where
  success : Bool
  error : Option String
  pageUrl : String
  timestamp : Nat
deriving DecidableEq, Repr

/-- State effect of `sessionStart` (session.ts lines 72 to 89): an empty
action log is written and the persisted step counter starts at zero. -/
def sessionStart (wsEndpoint : String) (goal : Option String)
    (finalUrl : String) (startedAt : Nat) (sessionDir : String) : SessionFiles :=
  { state := { wsEndpoint := wsEndpoint, goal := goal, currentUrl := finalUrl,
               stepCount := 0, startedAt := startedAt, sessionDir := sessionDir },
    log := [] }

/-- The log entry built by `sessionStep` (session.ts lines 148 to 160):
its `stepIndex` is the step counter read from the persisted state. -/
def stepEntry (f : SessionFiles) (opts : SessionStepOptions)
    (oc : StepOutcome) : ActionLogEntry :=
  { stepIndex := f.state.stepCount, action := opts.action,
    selector := opts.selector, value := opts.value, url := opts.url,
    toolName := opts.toolName, pageUrl := oc.pageUrl,
    screenshotPath := f.state.sessionDir ++ "/screenshot-latest.png",
    timestamp := oc.timestamp, success := oc.success, error := oc.error }

/-- State effect of `sessionStep` (session.ts lines 148 to 177): append one
entry to the action log, then increment the step counter and update the
current URL. -/
def sessionStep (f : SessionFiles) (opts : SessionStepOptions)
    (oc : StepOutcome) : SessionFiles :=
  { state := { f.state with
               stepCount := f.state.stepCount + 1
               currentUrl := oc.pageUrl },
    log := f.log ++ [stepEntry f opts oc] }

/-- A whole session: fold `sessionStep` over a sequence of step invocations. -/
def runSteps (f : SessionFiles) : List (SessionStepOptions × StepOutcome) → SessionFiles
  | [] => f
  | s :: rest => runSteps (sessionStep f s.1 s.2) rest

/-! ## DOM extraction (src/analysis/extract-dom.ts) -/

/-- An interactive DOM element (interface `InteractiveElement`; the optional
fields never assigned by extract-dom.ts are elided). -/
structure InteractiveElement where
  tag : String
  type : Option String := none
  selector : String
  ariaLabel : Option String := none
  text : Option String := none
  name : Option String := none
  id : Option String := none
  placeholder : Option String := none
  href : Option String := none
  role : Option String := none
  dataAttributes : Option (List (String × String)) := none
  actionHint : Option String := none
deriving DecidableEq, Repr

/-- A semantic page region (interface `Region`; the type field holds one of
the union's string values). -/
structure Region where
  type : String
  selector : String
  label : Option String := none
  interactiveElements : List InteractiveElement
deriving DecidableEq, Repr

/-- Playwright accessibility node (recursive; the state-flag fields that
extract-dom.ts never reads are elided). -/
inductive AccessibilityNode where
  | mk (role : String) (name : Option String) (value : Option String)
       (children : Option (List AccessibilityNode))
deriving Repr

/-- The `role` field of an accessibility node. -/
def AccessibilityNode.role : AccessibilityNode → String
  | .mk r _ _ _ => r

/-- The `name` field of an accessibility node. -/
def AccessibilityNode.name : AccessibilityNode → Option String
  | .mk _ n _ _ => n

/-- Flattened accessibility element (interface `FlatA11yElement`). -/
structure FlatA11yElement where
  role : String
  name : Option String := none
  value : Option String := none
  parentRole : Option String := none
  parentName : Option String := none
  depth : Nat
deriving DecidableEq, Repr

/-- The interactive-role set of `flattenAccessibilityTree`. -/
def interactiveRoles : List String :=
  ["button", "link", "textbox", "checkbox", "radio", "combobox", "listbox",
   "menuitem", "menuitemcheckbox", "menuitemradio", "option", "searchbox",
   "slider", "spinbutton", "switch", "tab", "treeitem"]

/-- The landmark-role set of `flattenAccessibilityTree`. -/
def landmarkRoles : List String :=
  ["banner", "navigation", "main", "contentinfo", "complementary", "form",
   "region", "dialog", "alertdialog"]

mutual

/-- Function `flattenAccessibilityTree`: collect interactive nodes, tracking
the nearest enclosing landmark role and name. -/
def flattenAccessibilityTree (node : AccessibilityNode)
    (parentRole parentName : Option String) (depth : Nat) : List FlatA11yElement :=
  match node with
  | .mk role name value children =>
    let here : List FlatA11yElement :=
      if role ∈ interactiveRoles then
        [{ role := role, name := name, value := value, parentRole := parentRole,
           parentName := parentName, depth := depth }]
      else []
    match children with
    | none => here
    | some cs =>
      let nextPR := if role ∈ landmarkRoles then some role else parentRole
      let nextPN := if role ∈ landmarkRoles then name else parentName
      here ++ flattenA11yList cs nextPR nextPN (depth + 1)

/-- The child loop of `flattenAccessibilityTree`. -/
def flattenA11yList (nodes : List AccessibilityNode)
    (parentRole parentName : Option String) (depth : Nat) : List FlatA11yElement :=
  match nodes with
  | [] => []
  | n :: ns =>
    flattenAccessibilityTree n parentRole parentName depth ++
      flattenA11yList ns parentRole parentName depth

end

/-- Function `mapRoleToRegionType`. -/
def mapRoleToRegionType (role : String) : String :=
  match role with
  | "banner" => "header"
  | "navigation" => "nav"
  | "main" => "main"
  | "contentinfo" => "footer"
  | "complementary" => "sidebar"
  | "form" => "form"
  | "region" => "section"
  | "dialog" => "dialog"
  | "alertdialog" => "dialog"
  | _ => "unknown"

/-- Function `roleToTag`. -/
def roleToTag (role : String) : String :=
  match role with
  | "banner" => "header"
  | "navigation" => "nav"
  | "main" => "main"
  | "contentinfo" => "footer"
  | "complementary" => "aside"
  | "form" => "form"
  | "dialog" => "dialog"
  | _ => "section"

/-- Function `buildRegionSelector`. -/
def buildRegionSelector (role : String) (label : Option String) : String :=
  if optTruthy label then
    "[role=\"" ++ role ++ "\"][aria-label=\"" ++ label.getD "" ++ "\"], " ++
      roleToTag role
  else
    "[role=\"" ++ role ++ "\"], " ++ roleToTag role

/-- Function `roleToHTMLTag`. -/
def roleToHTMLTag (role : String) : String :=
  match role with
  | "button" => "button"
  | "link" => "a"
  | "textbox" => "input"
  | "checkbox" => "input"
  | "radio" => "input"
  | "combobox" => "select"
  | "listbox" => "select"
  | "searchbox" => "input"
  | "slider" => "input"
  | "spinbutton" => "input"
  | "switch" => "input"
  | "tab" => "button"
  | "menuitem" => "button"
  | _ => "div"

/-- Function `buildElementSelector`: aria-label plus has-text expression when
the node has a (truthy) name, else a role-based expression. -/
def buildElementSelector (el : FlatA11yElement) : String :=
  let tag := roleToHTMLTag el.role
  if optTruthy el.name then
    tag ++ "[aria-label=\"" ++ el.name.getD "" ++ "\"], " ++ tag ++
      ":has-text(\"" ++ el.name.getD "" ++ "\")"
  else
    tag ++ "[role=\"" ++ el.role ++ "\"]"

/-- Function `inferActionHint`. -/
def inferActionHint (role : String) : String :=
  match role with
  | "button" => "trigger"
  | "link" => "navigation"
  | "textbox" => "input"
  | "checkbox" => "toggle"
  | "radio" => "selection"
  | "combobox" => "selection"
  | "listbox" => "selection"
  | "searchbox" => "input"
  | "slider" => "input"
  | "spinbutton" => "input"
  | "switch" => "toggle"
  | "tab" => "navigation"
  | "menuitem" => "trigger"
  | _ => "trigger"

/-- Function `a11yToInteractiveElement`. -/
def a11yToInteractiveElement (el : FlatA11yElement) : InteractiveElement :=
  { tag := roleToHTMLTag el.role, selector := buildElementSelector el,
    ariaLabel := el.name, text := el.name, role := some el.role,
    actionHint := some (inferActionHint el.role) }

/-- Region-map insertion of `groupByRegion`: the region object is created at
the first occurrence of its key (its label comes from that first element),
and elements are pushed in encounter order. -/
def regionInsert (m : List (String × Region)) (key : String)
    (label : Option String) (el : InteractiveElement) : List (String × Region) :=
  match m with
  | [] => [(key, { type := mapRoleToRegionType key,
                   selector := buildRegionSelector key label, label := label,
                   interactiveElements := [el] })]
  | (k, r) :: rest =>
    if k = key then
      (k, { r with interactiveElements := r.interactiveElements ++ [el] }) :: rest
    else (k, r) :: regionInsert rest key label el

/-- Function `groupByRegion`. -/
def groupByRegion (els : List FlatA11yElement) : List Region :=
  (els.foldl
    (fun m el =>
      regionInsert m (el.parentRole.getD "unknown") el.parentName
        (a11yToInteractiveElement el))
    []).map (fun g => g.2)

/-! ### Markup scanning (`extractFromHTML`)

Each regex of the source's pattern table becomes an explicit scanner with the
JS `exec` loop semantics: attempt a match at each position from the left; on
success emit the capture groups and resume after the match, else advance one
character. -/

/-- Word-boundary test after a literal tag name: the next character must not
be a word character (or the input ends). -/
def boundaryOK : List Char → Bool
  | [] => true
  | c :: _ => !wordChar c

/-- One raw regex match as the extraction loop consumes it: the pattern's
tag, capture group 1 and capture group 2 (`match[1]`, `match[2]`). -/
structure RawMatch where
  patTag : String
  g1 : String
  g2 : Option String
deriving DecidableEq, Repr

/-- Generic `exec` loop with fuel (each iteration consumes at least one
character, so fuel equal to the input length is exact). -/
def scanPattern (tryMatch : List Char → Option (RawMatch × List Char)) :
    Nat → List Char → List RawMatch
  | 0, _ => []
  | _, [] => []
  | fuel + 1, c :: cs =>
    match tryMatch (c :: cs) with
    | some (m, rest) => m :: scanPattern tryMatch fuel rest
    | none => scanPattern tryMatch fuel cs

/-- Regex `<button\b([^>]*)>([\s\S]*?)<\/button>` (flags gi) at one position. -/
def tryButton (s : List Char) : Option (RawMatch × List Char) :=
  match stripLitCI "<button".data s with
  | none => none
  | some rest =>
    if boundaryOK rest then
      let p := rest.span (fun c => !(c = '>'))
      match p.2 with
      | '>' :: rest3 =>
        match splitAtCI "</button>".data rest3 with
        | some (content, rest4) =>
          some ({ patTag := "button", g1 := String.mk p.1,
                  g2 := some (String.mk content) }, rest4)
        | none => none
      | _ => none
    else none

/-- Regex `<input\b([^>]*)\/?\s*>` (flags gi) at one position: the optional
slash and whitespace are absorbed by the greedy `[^>]*`, so the capture is
everything up to the first `>`. -/
def tryInput (s : List Char) : Option (RawMatch × List Char) :=
  match stripLitCI "<input".data s with
  | none => none
  | some rest =>
    if boundaryOK rest then
      let p := rest.span (fun c => !(c = '>'))
      match p.2 with
      | '>' :: rest3 =>
        some ({ patTag := "input", g1 := String.mk p.1, g2 := none }, rest3)
      | _ => none
    else none

/-- Regex `<select\b([^>]*)>[\s\S]*?<\/select>` (flags gi) at one position;
the element content is not captured. -/
def trySelect (s : List Char) : Option (RawMatch × List Char) :=
  match stripLitCI "<select".data s with
  | none => none
  | some rest =>
    if boundaryOK rest then
      let p := rest.span (fun c => !(c = '>'))
      match p.2 with
      | '>' :: rest3 =>
        match splitAtCI "</select>".data rest3 with
        | some (_, rest4) =>
          some ({ patTag := "select", g1 := String.mk p.1, g2 := none }, rest4)
        | none => none
      | _ => none
    else none

/-- Regex `<textarea\b([^>]*)>[\s\S]*?<\/textarea>` (flags gi) at one
position; the element content is not captured. -/
def tryTextarea (s : List Char) : Option (RawMatch × List Char) :=
  match stripLitCI "<textarea".data s with
  | none => none
  | some rest =>
    if boundaryOK rest then
      let p := rest.span (fun c => !(c = '>'))
      match p.2 with
      | '>' :: rest3 =>
        match splitAtCI "</textarea>".data rest3 with
        | some (_, rest4) =>
          some ({ patTag := "textarea", g1 := String.mk p.1, g2 := none }, rest4)
        | none => none
      | _ => none
    else none

/-- The anchor attribute test `[^>]*(?:onclick|href="(?!#|javascript:void))[^>]*`:
some occurrence of `onclick`, or some occurrence of `href="` whose following
text (running past the closing `>` of the tag) starts neither with `#` nor
with `javascript:void`. -/
def anchorHrefOK (afterGt : List Char) : List Char → Bool
  | [] => false
  | c :: cs =>
    match stripLitCI "href=\"".data (c :: cs) with
    | some after =>
      let follow := after ++ afterGt
      if follow.head? = some '#' then anchorHrefOK afterGt cs
      else if (stripLitCI "javascript:void".data follow).isSome then
        anchorHrefOK afterGt cs
      else true
    | none => anchorHrefOK afterGt cs

/-- Regex `<a\b([^>]*(?:onclick|href="(?!#|javascript:void))[^>]*)>([\s\S]*?)<\/a>`
(flags gi) at one position. -/
def tryAnchor (s : List Char) : Option (RawMatch × List Char) :=
  match stripLitCI "<a".data s with
  | none => none
  | some rest =>
    if boundaryOK rest then
      let p := rest.span (fun c => !(c = '>'))
      match p.2 with
      | '>' :: rest3 =>
        if (splitAtCI "onclick".data p.1).isSome
            || anchorHrefOK ('>' :: rest3) p.1 then
          match splitAtCI "</a>".data rest3 with
          | some (content, rest4) =>
            some ({ patTag := "a", g1 := String.mk p.1,
                    g2 := some (String.mk content) }, rest4)
          | none => none
        else none
      | _ => none
    else none

/-- One backtracking candidate of the dynamic-element regex, at occurrence
position `p` of `onclick="` (counted from after the tag name): the value runs
to the first `"` (and may cross `>`), the trailing `[^>]*` runs to the first
`>` after it, and the lazy content must reach a closing `</tag>`. -/
def dynCandidate (tagName rest1 : List Char) (p : Nat) :
    Option (RawMatch × List Char) :=
  let afterKey := rest1.drop (p + 9)
  let v := afterKey.span (fun c => !(c = '"'))
  match v.2 with
  | '"' :: q2 =>
    let w := q2.span (fun c => !(c = '>'))
    match w.2 with
    | '>' :: r2 =>
      let capLen := p + 9 + v.1.length + 1 + w.1.length
      match splitAtCI ('<' :: '/' :: (tagName ++ ['>'])) r2 with
      | some (_, rest4) =>
        some ({ patTag := "dynamic", g1 := String.mk tagName,
                g2 := some (String.mk (rest1.take capLen)) }, rest4)
      | none => none
    | _ => none
  | _ => none

/-- Try the dynamic-element candidates at a list of occurrence positions
(ordered last-to-first, as the greedy leading `[^>]*` backtracks). -/
def dynTryOccs (tagName rest1 : List Char) : List Nat → Option (RawMatch × List Char)
  | [] => none
  | p :: ps =>
    match dynCandidate tagName rest1 p with
    | some r => some r
    | none => dynTryOccs tagName rest1 ps

/-- Regex `<(\w+)\b([^>]*onclick="[^"]*"[^>]*)>([\s\S]*?)<\/\1>` (flags gi)
at one position.  Occurrences of `onclick="` are sought inside the run of
non-`>` characters after the tag name, preferring the rightmost. -/
def tryDynamic (s : List Char) : Option (RawMatch × List Char) :=
  match s with
  | '<' :: rest =>
    let t := rest.span wordChar
    if t.1.isEmpty then none
    else
      let rest1 := t.2
      let regionLen := (rest1.span (fun c => !(c = '>'))).1.length
      let occs := ((List.range regionLen).filter
        (fun p => (stripLitCI "onclick=\"".data (rest1.drop p)).isSome)).reverse
      dynTryOccs t.1 rest1 occs
  | _ => none

/-- The global replace of `/<[^>]*>/g` by the empty string, applied to
captured element content before trimming (fuel-driven: each iteration
consumes at least one character). -/
def stripTags : Nat → List Char → List Char
  | 0, s => s
  | _, [] => []
  | fuel + 1, c :: cs =>
    if c = '<' then
      match (cs.span (fun d => !(d = '>'))).2 with
      | '>' :: rest2 => stripTags fuel rest2
      | _ => c :: cs
    else c :: stripTags fuel cs

/-- Whole-string tag stripping. -/
def stripTagsAll (s : List Char) : List Char :=
  stripTags s.length s

/-- The attribute regex `name="([^"]*)"` (flag i) of `getAttr`: leftmost
case-insensitive occurrence of the attribute name, `="`, then the value up
to a required closing quote. -/
def getAttrScan (lit : List Char) : List Char → Option String
  | [] => none
  | c :: cs =>
    match stripLitCI lit (c :: cs) with
    | some rest =>
      let v := rest.span (fun d => !(d = '"'))
      match v.2 with
      | '"' :: _ => some (String.mk v.1)
      | _ => getAttrScan lit cs
    | none => getAttrScan lit cs

/-- The `getAttr` helper of `parseHTMLAttributes`. -/
def getAttr (name : String) (attrsStr : String) : Option String :=
  getAttrScan (name.data ++ "=\"".data) attrsStr.data

/-- The global scan of `data-([\w-]+)="([^"]*)"` (flags gi): key is a
non-empty run of word characters or dashes, value runs to a required closing
quote; the scan resumes after each full match. -/
def dataAttrScan : Nat → List Char → List (String × String)
  | 0, _ => []
  | _, [] => []
  | fuel + 1, c :: cs =>
    match stripLitCI "data-".data (c :: cs) with
    | some rest =>
      let k := rest.span (fun d => wordChar d || d = '-')
      if k.1.isEmpty then dataAttrScan fuel cs
      else
        match k.2 with
        | '=' :: '"' :: r2 =>
          let v := r2.span (fun d => !(d = '"'))
          match v.2 with
          | '"' :: r4 => (String.mk k.1, String.mk v.1) :: dataAttrScan fuel r4
          | _ => dataAttrScan fuel cs
        | _ => dataAttrScan fuel cs
    | none => dataAttrScan fuel cs

/-- JS object assignment for the data-attribute record. -/
def strUpsert (m : List (String × String)) (k v : String) : List (String × String) :=
  match m with
  | [] => [(k, v)]
  | (k0, v0) :: rest =>
    if k0 = k then (k0, v) :: rest else (k0, v0) :: strUpsert rest k v

/-- The data-attribute record of `parseHTMLAttributes`. -/
def dataAttrsOf (attrsStr : String) : List (String × String) :=
  (dataAttrScan attrsStr.length attrsStr.data).foldl
    (fun m kv => strUpsert m kv.1 kv.2) []

/-- Function `inferTagActionHint`. -/
def inferTagActionHint (tag : String) (type : Option String) : String :=
  if tag = "a" then "navigation"
  else if tag = "button" then
    (if type = some "submit" then "submission" else "trigger")
  else if tag = "input" then
    (if type = some "checkbox" ∨ type = some "radio" then "toggle"
     else if type = some "submit" then "submission"
     else "input")
  else if tag = "select" ∨ tag = "listbox" then "selection"
  else if tag = "textarea" then "input"
  else "trigger"

/-- Function `parseHTMLAttributes`: build the locator by the preference
order id, name, aria-label, placeholder, truncated text; an element with
none of these (all JS-falsy) is dropped. -/
def parseHTMLAttributes (tag : String) (attrsStr : String)
    (textContent : Option String) : Option InteractiveElement :=
  let id := getAttr "id" attrsStr
  let nm := getAttr "name" attrsStr
  let ty := getAttr "type" attrsStr
  let ariaLabel := getAttr "aria-label" attrsStr
  let placeholder := getAttr "placeholder" attrsStr
  let href := getAttr "href" attrsStr
  let role := getAttr "role" attrsStr
  let sel : Option String :=
    if optTruthy id then some ("#" ++ id.getD "")
    else if optTruthy nm then some (tag ++ "[name=\"" ++ nm.getD "" ++ "\"]")
    else if optTruthy ariaLabel then
      some (tag ++ "[aria-label=\"" ++ ariaLabel.getD "" ++ "\"]")
    else if optTruthy placeholder then
      some (tag ++ "[placeholder=\"" ++ placeholder.getD "" ++ "\"]")
    else if optTruthy textContent then
      some (tag ++ ":has-text(\"" ++ (textContent.getD "").take 50 ++ "\")")
    else none
  match sel with
  | none => none
  | some selector =>
    let dataAttrs := dataAttrsOf attrsStr
    some { tag := tag, type := ty, selector := selector, ariaLabel := ariaLabel,
           text := textContent, name := nm, id := id, placeholder := placeholder,
           href := href, role := role,
           dataAttributes := if dataAttrs.isEmpty then none else some dataAttrs,
           actionHint := some (inferTagActionHint tag ty) }

/-- Function `extractFromHTML`: run the six pattern scans in table order and
feed each match through `parseHTMLAttributes` exactly as the source loop does
(`attrs` is `match[1]`, the text is the tag-stripped, trimmed `match[2]`, and
for the dynamic pattern the tag is `match[1]`). -/
def extractFromHTML (bodyHTML : String) : List InteractiveElement :=
  let cs := bodyHTML.data
  let n := cs.length
  let ms := scanPattern tryButton n cs ++ scanPattern tryInput n cs ++
    scanPattern trySelect n cs ++ scanPattern tryTextarea n cs ++
    scanPattern tryAnchor n cs ++ scanPattern tryDynamic n cs
  ms.filterMap (fun m =>
    let attrs := m.g1
    let txt := m.g2.map (fun t => jsTrim (String.mk (stripTagsAll t.data)))
    let tag := if m.patTag = "dynamic" then m.g1 else m.patTag
    parseHTMLAttributes tag attrs txt)

/-! ### Merge of the two passes -/

/-- All selectors already present in the tree-pass regions. -/
def allSelectors (regions : List Region) : List String :=
  (regions.map (fun r => r.interactiveElements.map (fun e => e.selector))).flatten

/-- The markup elements that survive deduplication against the existing
selector set (which grows as elements are added). -/
def survivors (existing : List String) : List InteractiveElement → List InteractiveElement
  | [] => []
  | e :: rest =>
    if e.selector ∈ existing then survivors existing rest
    else e :: survivors (e.selector :: existing) rest

/-- Replace the element at an index. -/
def listModify (f : Region → Region) : Nat → List Region → List Region
  | _, [] => []
  | 0, r :: rs => f r :: rs
  | n + 1, r :: rs => r :: listModify f n rs

/-- Index of the first region of type "unknown" (`regions.find` in the
source keeps a reference to that region object). -/
def findUnknownIdx : List Region → Option Nat
  | [] => none
  | r :: rs =>
    if r.type = "unknown" then some 0 else (findUnknownIdx rs).map (fun j => j + 1)

/-- Function `mergeHTMLElements`: skip markup elements whose selector is
already present; append the rest to the first `unknown` region, creating it
at the end of the list when absent (and only when something is added). -/
def mergeHTMLElements (regions : List Region)
    (htmlEls : List InteractiveElement) : List Region :=
  let adds := survivors (allSelectors regions) htmlEls
  match findUnknownIdx regions with
  | some j =>
    listModify (fun r => { r with interactiveElements := r.interactiveElements ++ adds })
      j regions
  | none =>
    if adds.isEmpty then regions
    else regions ++ [{ type := "unknown", selector := "body",
                       interactiveElements := adds }]

/-- A captured page state (interface `PageSnapshot`; the screenshot field is
elided). -/
structure PageSnapshot where
  url : String
  title : String
  bodyHTML : String
  accessibilityTree : Option AccessibilityNode
  timestamp : Nat
  stepIndex : Int
deriving Repr

/-- DOM analysis result (interface `DOMAnalysis`). -/
structure DOMAnalysis where
  url : String
  regions : List Region
  totalInteractiveElements : Nat
deriving DecidableEq, Repr

/-- The tree-based pass of `extractDOM`: flatten and group the accessibility
tree when present. -/
def treePassRegions (snapshot : PageSnapshot) : List Region :=
  match snapshot.accessibilityTree with
  | some tree => groupByRegion (flattenAccessibilityTree tree none none 0)
  | none => []

/-- Function `extractDOM`: tree pass, markup pass, merge, and the summed
element count. -/
def extractDOM (snapshot : PageSnapshot) : DOMAnalysis :=
  let merged := mergeHTMLElements (treePassRegions snapshot)
    (extractFromHTML snapshot.bodyHTML)
  { url := snapshot.url, regions := merged,
    totalInteractiveElements :=
      (merged.map (fun r => r.interactiveElements.length)).sum }

/-! ## Tool code generator (src/generator/generate-tools.ts)

The generator is a pure function from proposals to TypeScript text.  Braces
that occur in generated text are written with `\x7b` and `\x7d` escapes. -/

/-- Lower-case hexadecimal digit. -/
def hexDigit (n : Nat) : Char :=
  if n < 10 then Char.ofNat (48 + n) else Char.ofNat (97 + (n - 10))

/-- Four-digit hexadecimal rendering for string escapes. -/
def hex4 (n : Nat) : String :=
  String.mk [hexDigit (n / 4096 % 16), hexDigit (n / 256 % 16),
             hexDigit (n / 16 % 16), hexDigit (n % 16)]

/-- `JSON.stringify` escaping of one character. -/
def jsStringifyChar (c : Char) : String :=
  if c = '"' then "\\\""
  else if c = '\\' then "\\\\"
  else if c = Char.ofNat 8 then "\\b"
  else if c = Char.ofNat 12 then "\\f"
  else if c = '\n' then "\\n"
  else if c = Char.ofNat 13 then "\\r"
  else if c = '\t' then "\\t"
  else if c.toNat < 32 then "\\u" ++ hex4 c.toNat
  else String.singleton c

/-- `JSON.stringify` of a string value (used by the generator for
descriptions, selectors, enum members and static values). -/
def jsStringify (s : String) : String :=
  "\"" ++ String.join (s.data.map jsStringifyChar) ++ "\""

/-- Join with newlines (JS `lines.join("\n")`), by structural recursion so
that symbolic per-line strings still reduce. -/
def joinLines : List String → String
  | [] => ""
  | [l] => l
  | l :: ls => l ++ "\n" ++ joinLines ls

/-- JS boolean rendering. -/
def boolJS : Bool → String
  | true => "true"
  | false => "false"

/-- A property of the proposal input schema (interface `ToolInputProperty`;
the `default` field, which the generator never reads, is elided; numeric
bounds are modelled as integers). -/
inductive ToolInputProperty where
  | mk (type : String) (description : String) (enum : Option (List String))
       (minimum : Option Int) (maximum : Option Int)
       (items : Option ToolInputProperty)

/-- The `type` field of a schema property. -/
def ToolInputProperty.type : ToolInputProperty → String
  | .mk t _ _ _ _ _ => t

/-- The `description` field of a schema property. -/
def ToolInputProperty.description : ToolInputProperty → String
  | .mk _ d _ _ _ _ => d

/-- Proposal input schema (interface `ToolInputSchema`; `type` is the fixed
string "object"). -/
structure ToolInputSchema where
  properties : List (String × ToolInputProperty)
  required : Option (List String) := none

/-- Action details of a js-call tool (interface `JSCallAction`). -/
structure JSCallAction where
  functionPath : String
  argMapping : List String
  returnType : Option String := none
deriving DecidableEq, Repr

/-- The DOM-step action vocabulary of `DOMActionStep.action`. -/
inductive DOMStepAction where
  | click | fill | select | check | submit | scroll | read
deriving DecidableEq, Repr

/-- The string form of a DOM-step action. -/
def DOMStepAction.asString : DOMStepAction → String
  | .click => "click"
  | .fill => "fill"
  | .select => "select"
  | .check => "check"
  | .submit => "submit"
  | .scroll => "scroll"
  | .read => "read"

/-- One step of a dom-action tool (interface `DOMActionStep`). -/
structure DOMActionStep where
  action : DOMStepAction
  selector : String
  inputProperty : Option String := none
  staticValue : Option String := none
  delay : Option Nat := none
  readAttribute : Option String := none
  description : Option String := none
deriving DecidableEq, Repr

/-- Action details of a dom-action tool (interface `DOMAction`). -/
structure DOMAction where
  steps : List DOMActionStep
deriving DecidableEq, Repr

/-- The two actionDetails shapes, tagged as the `actionType` discriminator
keeps them in the source (`js-call` versus `dom-action`). -/
inductive ActionDetails where
  | jsCall (a : JSCallAction)
  | domAction (a : DOMAction)

/-- Tool annotations (interface `ToolProposalAnnotations`). -/
structure ToolProposalAnnotations where
  readOnlyHint : Option Bool := none
  destructiveHint : Option Bool := none
  confirmationHint : Option Bool := none
  openWorldHint : Option Bool := none
deriving DecidableEq, Repr

/-- A tool proposal (interface `ToolProposal`). -/
structure ToolProposal where
  name : String
  description : String
  inputSchema : ToolInputSchema
  actionDetails : ActionDetails
  annotations : Option ToolProposalAnnotations := none
  urlPattern : Option String := none

/-- A generated file (interface `GeneratedFile`). -/
structure GeneratedFile where
  path : String
  content : String
deriving DecidableEq, Repr

/-- Function `generateZodType`: the Zod type expression of one property. -/
def generateZodType : ToolInputProperty → String
  | .mk t _ e mn mx it =>
    if t = "string" then
      match e with
      | some vals =>
        "z.enum([" ++ String.intercalate ", " (vals.map jsStringify) ++ "])"
      | none => "z.string()"
    else if t = "number" then
      let e1 := "z.number()"
      let e2 := match mn with
        | some m => e1 ++ ".min(" ++ toString m ++ ")"
        | none => e1
      match mx with
      | some m => e2 ++ ".max(" ++ toString m ++ ")"
      | none => e2
    else if t = "boolean" then "z.boolean()"
    else if t = "array" then
      match it with
      | some p => "z.array(" ++ generateZodType p ++ ")"
      | none => "z.array(z.unknown())"
    else if t = "object" then "z.record(z.unknown())"
    else "z.unknown()"

/-- Function `generateZodSchema`: the whole `z.object` expression; properties
outside the required list get `.optional()`, truthy descriptions get
`.describe(...)`. -/
def generateZodSchema (schema : ToolInputSchema) : String :=
  if schema.properties.isEmpty then "z.object(\x7b\x7d)"
  else
    let required := schema.required.getD []
    let props := schema.properties.map (fun nv =>
      let zt := generateZodType nv.2
      let zt := if nv.1 ∈ required then zt else zt ++ ".optional()"
      let zt := if (nv.2).description.isEmpty then zt
        else zt ++ ".describe(" ++ jsStringify (nv.2).description ++ ")"
      "  " ++ nv.1 ++ ": " ++ zt)
    "z.object(\x7b\n" ++ String.intercalate ",\n" props ++ ",\n\x7d)"

/-- The positional argument list of the emitted call (`input.<name>` per
`argMapping` entry, comma-joined). -/
def jsCallArgs (action : JSCallAction) : String :=
  String.intercalate ", " (action.argMapping.map (fun a => "input." ++ a))

/-- The line list of `generateJSCallBody`. -/
def jsCallLines (action : JSCallAction) : List String :=
  let args := jsCallArgs action
  let core := if action.returnType = some "void" then
      ["      fn(" ++ args ++ ");",
       "      return textContent(\"Action completed successfully\");"]
    else
      ["      const result = fn(" ++ args ++ ");",
       "      return jsonContent(result);"]
  (
    ["    try \x7b",
     "      // Call the page\x27s JS function directly",
     "      const fn = " ++ action.functionPath ++ ";",
     "      if (typeof fn !== \"function\") \x7b",
     "        return textContent(\"Error: " ++ action.functionPath ++
       " is not available on this page\");",
     "      \x7d"] ++ core ++
    ["    \x7d catch (error) \x7b",
     "      return textContent(`Error calling " ++ action.functionPath ++
       ": $\x7berror\x7d`);",
     "    \x7d"])

/-- Function `generateJSCallBody`: guarded direct invocation; a void return
type yields the fixed success text, otherwise the result is captured and
packaged as JSON content. -/
def generateJSCallBody (action : JSCallAction) : String :=
  joinLines (jsCallLines action)

/-- Function `generateDOMStep`: code for one DOM step.  Read steps use
optional chaining on the queried element; every other step kind emits a
not-found guard that throws before acting. -/
def generateDOMStep (step : DOMActionStep) (index : Nat) : String :=
  let qsLine := "      const el_" ++ toString index ++
    " = document.querySelector(" ++ jsStringify step.selector ++ ");"
  match step.action with
  | .read =>
    let attr := step.readAttribute.getD "textContent"
    let line2 :=
      if attr = "textContent" ∨ attr = "innerHTML" ∨ attr = "outerHTML" then
        "      const result_" ++ toString index ++ " = el_" ++ toString index ++
          "?." ++ attr ++ ";"
      else if attr = "value" then
        "      const result_" ++ toString index ++ " = (el_" ++ toString index ++
          " as HTMLInputElement)?.value;"
      else
        "      const result_" ++ toString index ++ " = el_" ++ toString index ++
          "?.getAttribute(" ++ jsStringify attr ++ ");"
    qsLine ++ "\n" ++ line2
  | other =>
    let guardLine := "      if (!el_" ++ toString index ++
      ") throw new Error(\"Element not found: " ++ step.selector ++ "\");"
    let actLines : List String :=
      match other with
      | .click => ["      (el_" ++ toString index ++ " as HTMLElement).click();"]
      | .fill =>
        let value := if optTruthy step.inputProperty then
            "input." ++ step.inputProperty.getD ""
          else jsStringify (step.staticValue.getD "")
        ["      (el_" ++ toString index ++ " as HTMLInputElement).value = " ++
           value ++ ";",
         "      el_" ++ toString index ++
           ".dispatchEvent(new Event(\"input\", \x7b bubbles: true \x7d));",
         "      el_" ++ toString index ++
           ".dispatchEvent(new Event(\"change\", \x7b bubbles: true \x7d));"]
      | .select =>
        let value := if optTruthy step.inputProperty then
            "input." ++ step.inputProperty.getD ""
          else jsStringify (step.staticValue.getD "")
        ["      (el_" ++ toString index ++ " as HTMLSelectElement).value = " ++
           value ++ ";",
         "      el_" ++ toString index ++
           ".dispatchEvent(new Event(\"change\", \x7b bubbles: true \x7d));"]
      | .check =>
        ["      (el_" ++ toString index ++ " as HTMLInputElement).checked = true;",
         "      el_" ++ toString index ++
           ".dispatchEvent(new Event(\"change\", \x7b bubbles: true \x7d));"]
      | .submit => ["      (el_" ++ toString index ++ " as HTMLFormElement).submit();"]
      | .scroll =>
        ["      el_" ++ toString index ++
           ".scrollIntoView(\x7b behavior: \"smooth\" \x7d);"]
      | .read => []
    joinLines (qsLine :: guardLine :: actLines)

/-- The step loop of `generateDOMActionBody`: a comment, the step code and
an optional (truthy) delay, for each step in order. -/
def domStepLines : Nat → List DOMActionStep → List String
  | _, [] => []
  | i, step :: rest =>
    (["      // Step " ++ toString (i + 1) ++ ": " ++
        step.description.getD step.action.asString,
      generateDOMStep step i] ++
     (match step.delay with
      | some d =>
        if d ≠ 0 then
          ["      await new Promise(resolve => setTimeout(resolve, " ++
             toString d ++ "));"]
        else []
      | none => [])) ++ domStepLines (i + 1) rest

/-- The final `return` line of a dom-action body: the last read's result
with a fixed fallback when the final step is a read, else the fixed success
text. -/
def domRetLine (action : DOMAction) : String :=
  match action.steps.getLast? with
  | some last =>
    if last.action = DOMStepAction.read then
      "      return textContent(result_" ++ toString (action.steps.length - 1) ++
        " ?? \"No content found\");"
    else "      return textContent(\"Action completed successfully\");"
  | none => "      return textContent(\"Action completed successfully\");"

/-- The line list of `generateDOMActionBody`. -/
def domBodyLines (action : DOMAction) : List String :=
  ["    try \x7b"] ++ domStepLines 0 action.steps ++ [domRetLine action] ++
    ["    \x7d catch (error) \x7b",
     "      return textContent(`Error: $\x7berror\x7d`);",
     "    \x7d"]

/-- Function `generateDOMActionBody`: the try/catch wrapper around the step
sequence; when the final step is a read, the body returns that read's result
with a fixed fallback, else the fixed success text. -/
def generateDOMActionBody (action : DOMAction) : String :=
  joinLines (domBodyLines action)

/-- The annotations block of `generateToolFile` (only the three hints the
source emits). -/
def annotationLines (ann : Option ToolProposalAnnotations) : List String :=
  match ann with
  | none => []
  | some a =>
    let entries :=
      (match a.readOnlyHint with
       | some b => ["    readOnlyHint: " ++ boolJS b]
       | none => []) ++
      (match a.destructiveHint with
       | some b => ["    destructiveHint: " ++ boolJS b]
       | none => []) ++
      (match a.confirmationHint with
       | some b => ["    confirmationHint: " ++ boolJS b]
       | none => [])
    if entries.isEmpty then []
    else ["  annotations: \x7b", String.intercalate ",\n" entries, "  \x7d,"]

/-- Function `generateToolFile`: one complete tool source file. -/
def generateToolFile (proposal : ToolProposal) : String :=
  joinLines (
    ["import \x7b defineTool, textContent, jsonContent \x7d from \"webmcp-kit\";",
     "import \x7b z \x7d from \"zod\";",
     "",
     "const inputSchema = " ++ generateZodSchema proposal.inputSchema ++ ";",
     "",
     "export const " ++ proposal.name ++ "Tool = defineTool(\x7b",
     "  name: \"" ++ proposal.name ++ "\",",
     "  description: " ++ jsStringify proposal.description ++ ",",
     "  inputSchema,"] ++
    annotationLines proposal.annotations ++
    ["  execute: async (input) => \x7b",
     (match proposal.actionDetails with
      | .jsCall a => generateJSCallBody a
      | .domAction a => generateDOMActionBody a),
     "  \x7d,",
     "\x7d);",
     "",
     "// Register the tool when this module is loaded",
     proposal.name ++ "Tool.register();",
     ""])

/-- Function `generateToolFiles`: one file per proposal, in proposal order,
at path `tools/<name>.ts`. -/
def generateToolFiles (proposals : List ToolProposal) : List GeneratedFile :=
  proposals.map (fun proposal =>
    { path := "tools/" ++ proposal.name ++ ".ts",
      content := generateToolFile proposal })

/-! ## Agent-reply parsing (src/analysis/propose-tools.ts)

`parseToolProposals` extracts the payload (first fenced block, else the
whole reply), decodes it with `JSON.parse`, and accepts a bare array or a
`tools` wrapper.  `JSON.parse` is modelled by a recursive-descent parser
over the JSON grammar; numbers keep their lexeme. -/

/-- A JSON value.  Numbers keep their source lexeme (nothing in the parsing
claims depends on numeric semantics). -/
inductive Json where
  | null
  | bool (b : Bool)
  | num (lit : String)
  | str (s : String)
  | arr (elems : List Json)
  | obj (fields : List (String × Json))

/-- The opening-brace character, written by code point. -/
def lbrace : Char := Char.ofNat 123

/-- The closing-brace character, written by code point. -/
def rbrace : Char := Char.ofNat 125

/-- JSON insignificant whitespace (space, tab, line feed, carriage return). -/
def jsonWs (c : Char) : Bool :=
  c = ' ' || c = '\t' || c = '\n' || c = Char.ofNat 13

/-- Skip insignificant whitespace. -/
def skipWs (s : List Char) : List Char :=
  s.dropWhile jsonWs

/-- Hexadecimal digit value. -/
def hexVal (c : Char) : Option Nat :=
  if c.isDigit then some (c.toNat - 48)
  else if 97 ≤ c.toNat ∧ c.toNat ≤ 102 then some (c.toNat - 87)
  else if 65 ≤ c.toNat ∧ c.toNat ≤ 70 then some (c.toNat - 55)
  else none

/-- JSON string body, after the opening quote: ordinary characters, the
eight simple escapes and `\uXXXX`; raw control characters are rejected.
Returns the content and the remainder after the closing quote. -/
def parseJString : Nat → List Char → Except String (List Char × List Char)
  | 0, _ => .error "Unterminated string in JSON"
  | _, [] => .error "Unterminated string in JSON"
  | fuel + 1, c :: cs =>
    if c = '"' then .ok ([], cs)
    else if c = '\\' then
      match cs with
      | [] => .error "Unterminated string in JSON"
      | e :: cs2 =>
        let esc : Except String (Char × List Char) :=
          if e = '"' then .ok ('"', cs2)
          else if e = '\\' then .ok ('\\', cs2)
          else if e = '/' then .ok ('/', cs2)
          else if e = 'b' then .ok (Char.ofNat 8, cs2)
          else if e = 'f' then .ok (Char.ofNat 12, cs2)
          else if e = 'n' then .ok ('\n', cs2)
          else if e = 'r' then .ok (Char.ofNat 13, cs2)
          else if e = 't' then .ok ('\t', cs2)
          else if e = 'u' then
            match cs2 with
            | h1 :: h2 :: h3 :: h4 :: cs3 =>
              match hexVal h1, hexVal h2, hexVal h3, hexVal h4 with
              | some a, some b, some c3, some d =>
                .ok (Char.ofNat (a * 4096 + b * 256 + c3 * 16 + d), cs3)
              | _, _, _, _ => .error "Bad Unicode escape in JSON"
            | _ => .error "Bad Unicode escape in JSON"
          else .error "Bad escaped character in JSON string"
        match esc with
        | .error m => .error m
        | .ok (ch, rest) =>
          match parseJString fuel rest with
          | .ok (content, rest2) => .ok (ch :: content, rest2)
          | .error m => .error m
    else if c.toNat < 32 then
      .error "Bad control character in string literal in JSON"
    else
      match parseJString fuel cs with
      | .ok (content, rest2) => .ok (c :: content, rest2)
      | .error m => .error m

/-- JSON number lexeme after an optional minus sign: integer part, optional
fraction, optional exponent. -/
def parseNumTail (s : List Char) : Except String (List Char × List Char) :=
  let intPart : Except String (List Char × List Char) :=
    match s with
    | '0' :: rest => .ok (['0'], rest)
    | c :: _ =>
      if c.isDigit then
        let p := s.span Char.isDigit
        .ok (p.1, p.2)
      else .error "Unexpected token in JSON: not a number"
    | [] => .error "Unexpected end of JSON input"
  match intPart with
  | .error m => .error m
  | .ok (ip, r1) =>
    let fracPart : Except String (List Char × List Char) :=
      match r1 with
      | '.' :: r2 =>
        let p := r2.span Char.isDigit
        if p.1.isEmpty then .error "Missing digits after decimal point in JSON"
        else .ok ('.' :: p.1, p.2)
      | _ => .ok ([], r1)
    match fracPart with
    | .error m => .error m
    | .ok (fp, r3) =>
      match r3 with
      | e :: r4 =>
        if e = 'e' ∨ e = 'E' then
          let r5 := match r4 with
            | '+' :: r => ('+' :: [], r)
            | '-' :: r => ('-' :: [], r)
            | r => ([], r)
          let p := r5.2.span Char.isDigit
          if p.1.isEmpty then .error "Missing digits after exponent in JSON"
          else .ok (ip ++ fp ++ e :: r5.1 ++ p.1, p.2)
        else .ok (ip ++ fp, r3)
      | [] => .ok (ip ++ fp, r3)

/-- JSON object-field accumulation: a duplicate key overwrites in place, as
`JSON.parse` assignment does. -/
def jsonObjInsert (fields : List (String × Json)) (k : String) (v : Json) :
    List (String × Json) :=
  match fields with
  | [] => [(k, v)]
  | f :: rest =>
    if f.1 = k then (f.1, v) :: rest else f :: jsonObjInsert rest k v

mutual

/-- One JSON value (fuel-driven recursive descent). -/
def parseJValue : Nat → List Char → Except String (Json × List Char)
  | 0, _ => .error "JSON too deeply nested"
  | fuel + 1, s =>
    match skipWs s with
    | [] => .error "Unexpected end of JSON input"
    | c :: cs =>
      if c = '"' then
        match parseJString (cs.length + 1) cs with
        | .ok (content, rest) => .ok (Json.str (String.mk content), rest)
        | .error m => .error m
      else if c = lbrace then parseJObjFirst fuel cs
      else if c = '[' then parseJArrFirst fuel cs
      else if c = 't' then
        match stripLit "rue".data cs with
        | some rest => .ok (Json.bool true, rest)
        | none => .error "Unexpected token t in JSON"
      else if c = 'f' then
        match stripLit "alse".data cs with
        | some rest => .ok (Json.bool false, rest)
        | none => .error "Unexpected token f in JSON"
      else if c = 'n' then
        match stripLit "ull".data cs with
        | some rest => .ok (Json.null, rest)
        | none => .error "Unexpected token n in JSON"
      else if c = '-' then
        match parseNumTail cs with
        | .ok (lex, rest) => .ok (Json.num (String.mk ('-' :: lex)), rest)
        | .error m => .error m
      else if c.isDigit then
        match parseNumTail (c :: cs) with
        | .ok (lex, rest) => .ok (Json.num (String.mk lex), rest)
        | .error m => .error m
      else .error ("Unexpected token " ++ String.singleton c ++ " in JSON")

/-- Array contents directly after `[`. -/
def parseJArrFirst : Nat → List Char → Except String (Json × List Char)
  | 0, _ => .error "JSON too deeply nested"
  | fuel + 1, s =>
    match skipWs s with
    | ']' :: rest => .ok (Json.arr [], rest)
    | s1 =>
      match parseJValue fuel s1 with
      | .error m => .error m
      | .ok (v, r) => parseJArrRest fuel [v] r

/-- Array continuation: comma-separated elements until `]`. -/
def parseJArrRest (fuel : Nat) (acc : List Json) (s : List Char) :
    Except String (Json × List Char) :=
  match fuel with
  | 0 => .error "JSON too deeply nested"
  | fuel + 1 =>
    match skipWs s with
    | ']' :: rest => .ok (Json.arr acc.reverse, rest)
    | ',' :: r2 =>
      match parseJValue fuel r2 with
      | .error m => .error m
      | .ok (v, r3) => parseJArrRest fuel (v :: acc) r3
    | _ => .error "Expected comma or closing bracket after array element in JSON"

/-- Object contents directly after the opening brace. -/
def parseJObjFirst : Nat → List Char → Except String (Json × List Char)
  | 0, _ => .error "JSON too deeply nested"
  | fuel + 1, s =>
    match skipWs s with
    | c :: cs =>
      if c = rbrace then .ok (Json.obj [], cs)
      else if c = '"' then
        match parseJMember fuel cs with
        | .error m => .error m
        | .ok (k, v, r) => parseJObjRest fuel (jsonObjInsert [] k v) r
      else .error "Expected property name or closing brace in JSON"
    | [] => .error "Unexpected end of JSON input"

/-- One object member after the opening quote of its key. -/
def parseJMember (fuel : Nat) (s : List Char) :
    Except String (String × Json × List Char) :=
  match fuel with
  | 0 => .error "JSON too deeply nested"
  | fuel + 1 =>
    match parseJString (s.length + 1) s with
    | .error m => .error m
    | .ok (key, r1) =>
      match skipWs r1 with
      | ':' :: r2 =>
        match parseJValue fuel r2 with
        | .error m => .error m
        | .ok (v, r3) => .ok (String.mk key, v, r3)
      | _ => .error "Expected colon after property name in JSON"

/-- Object continuation: comma-separated members until the closing brace. -/
def parseJObjRest (fuel : Nat) (acc : List (String × Json)) (s : List Char) :
    Except String (Json × List Char) :=
  match fuel with
  | 0 => .error "JSON too deeply nested"
  | fuel + 1 =>
    match skipWs s with
    | c :: cs =>
      if c = rbrace then .ok (Json.obj acc, cs)
      else if c = ',' then
        match skipWs cs with
        | '"' :: cs2 =>
          match parseJMember fuel cs2 with
          | .error m => .error m
          | .ok (k, v, r) => parseJObjRest fuel (jsonObjInsert acc k v) r
        | _ => .error "Expected double-quoted property name in JSON"
      else .error "Expected comma or closing brace after property value in JSON"
    | [] => .error "Unexpected end of JSON input"

end

/-- Model of `JSON.parse`: one value, then only whitespace to the end. -/
def jsonParse (text : String) : Except String Json :=
  match parseJValue (4 * (text.length + 1)) text.data with
  | .error m => .error m
  | .ok (v, rest) =>
    if (skipWs rest).isEmpty then .ok v
    else .error "Unexpected non-whitespace character after JSON data"

/-- The fence regex of `parseToolProposals` tried at one position:
three backticks, an optional `json` tag, greedy whitespace, then the lazy
capture up to the next three backticks. -/
def fenceAt (s : List Char) : Option (List Char) :=
  match stripLit ("`".data ++ "`".data ++ "`".data) s with
  | none => none
  | some rest =>
    let rest1 := match stripLit "json".data rest with
      | some r => r
      | none => rest
    let rest2 := rest1.dropWhile Char.isWhitespace
    match splitAtLit ("`".data ++ "`".data ++ "`".data) rest2 with
    | some (content, _) => some content
    | none => none

/-- Leftmost match of the fence regex. -/
def findFence : List Char → Option (List Char)
  | [] => none
  | c :: cs =>
    match fenceAt (c :: cs) with
    | some content => some content
    | none => findFence cs

/-- Payload extraction of `parseToolProposals`: the first fenced block when
one exists, else the whole reply, trimmed either way. -/
def extractFencePayload (s : String) : String :=
  match findFence s.data with
  | some content => jsTrim (String.mk content)
  | none => jsTrim s

/-- The three failure paths of `parseToolProposals`, kept distinct: a
`JSON.parse` failure (wrapped with the parse message), the explicit
"Expected an array of tool proposals" shape error, and the property-access
TypeError raised by reading `.tools` off a decoded `null`.  All three are
wrapped in the same catch with the prefix "Failed to parse tool proposals:". -/
inductive ParseFault where
  | decode (msg : String)
  | shape
  | nullAccess
deriving DecidableEq, Repr

/-- The thrown error's message text (the `nullAccess` wording is the V8
TypeError message). -/
def parseFaultMessage : ParseFault → String
  | .decode m => "Failed to parse tool proposals: " ++ m
  | .shape => "Failed to parse tool proposals: Expected an array of tool proposals"
  | .nullAccess =>
    "Failed to parse tool proposals: Cannot read properties of null (reading \x27tools\x27)"

/-- First binding of a key in a decoded object (JS property read). -/
def jsonLookup (k : String) : List (String × Json) → Option Json
  | [] => none
  | f :: rest => if f.1 = k then some f.2 else jsonLookup k rest

/-- Function `parseToolProposals`: extract the payload, decode it, then
accept a bare array unchanged, or the inner array of a `tools` wrapper;
a decoded `null` faults on the `.tools` read itself; any other non-array
value is a shape fault. -/
def parseToolProposals (agentResponse : String) : Except ParseFault (List Json) :=
  let jsonStr := extractFencePayload agentResponse
  match jsonParse jsonStr with
  | .error m => .error (.decode m)
  | .ok (Json.arr xs) => .ok xs
  | .ok Json.null => .error .nullAccess
  | .ok (Json.obj fields) =>
    match jsonLookup "tools" fields with
    | some (Json.arr ts) => .ok ts
    | _ => .error .shape
  | .ok _ => .error .shape

/-! ### Analysis helpers for the merge claims -/

/-- All interactive elements of a region list, in region order. -/
def elemsOf (regions : List Region) : List InteractiveElement :=
  (regions.map (fun r => r.interactiveElements)).flatten

/-- The number of elements carrying a given selector. -/
def countSel (els : List InteractiveElement) (s : String) : Nat :=
  (els.filter (fun e => e.selector == s)).length

/-! ### Concrete fixtures used by witnesses and counterexamples -/

/-- The accessibility tree of the C1 snapshot: a main landmark with one
Submit button. -/
def c1Tree : AccessibilityNode :=
  AccessibilityNode.mk "WebArea" none none (some
    [AccessibilityNode.mk "main" none none (some
      [AccessibilityNode.mk "button" (some "Submit") none none])])

/-- The C1 snapshot: one logical element — a Submit button — present in the
accessibility tree and in the markup. -/
def c1Snap : PageSnapshot :=
  { url := "https://x.example", title := "t",
    bodyHTML := "<button aria-label=\"Submit\">Submit</button>",
    accessibilityTree := some c1Tree, timestamp := 0, stepIndex := -1 }

/-- A void-returning js-call action. -/
def voidCallAct : JSCallAction :=
  { functionPath := "window.cart.clear", argMapping := [], returnType := some "void" }

/-- An object-returning js-call action. -/
def objCallAct : JSCallAction :=
  { functionPath := "window.getMenu", argMapping := [], returnType := some "object" }

/-- A concrete click step. -/
def clickStepFx : DOMActionStep :=
  { action := DOMStepAction.click, selector := "#add-to-cart-btn" }

/-- A concrete read step on textContent. -/
def readStepFx : DOMActionStep :=
  { action := DOMStepAction.read, selector := "#content",
    readAttribute := some "textContent" }

/-- A one-step dom-action ending in a read. -/
def readActFx : DOMAction := { steps := [readStepFx] }

/-- C2 scenario, entry 1: fill `name` with "Ann", tagged `fillForm`. -/
def fxFillName : ActionLogEntry :=
  { stepIndex := 0, action := SessionAction.fill,
    selector := some "[name=\"name\"]", value := some "Ann", url := none,
    toolName := some "fillForm", pageUrl := "https://site.example/form",
    screenshotPath := "sess/screenshot-latest.png", timestamp := 100,
    success := true, error := none }

/-- C2 scenario, entry 2: fill `email` with "a@b.com", tagged `fillForm`. -/
def fxFillEmail : ActionLogEntry :=
  { fxFillName with
    stepIndex := 1
    selector := some "[name=\"email\"]"
    value := some "a@b.com"
    timestamp := 101 }

/-- C2 scenario, entry 3: an untagged wait. -/
def fxWait : ActionLogEntry :=
  { fxFillName with
    stepIndex := 2
    action := SessionAction.wait
    selector := none
    value := some "500"
    toolName := none
    timestamp := 102 }

/-- The C2 scenario log. -/
def demoLog : List ActionLogEntry := [fxFillName, fxFillEmail, fxWait]

/-- The first derived step of the C2 scenario tool. -/
def fxStepName : ToolActionStep :=
  { action := SessionAction.fill, selector := "[name=\"name\"]",
    inputProperty := some "name" }

/-- The second derived step of the C2 scenario tool. -/
def fxStepEmail : ToolActionStep :=
  { action := SessionAction.fill, selector := "[name=\"email\"]",
    inputProperty := some "email" }

/-- The tool the C2 scenario must derive: one `fillForm` with two steps and
a two-property all-required schema. -/
def demoFillFormTool : ToolFromActions :=
  { name := "fillForm", steps := [fxStepName, fxStepEmail],
    inputSchema :=
      { type := "object",
        properties :=
          [("name", { type := "string", description := "Value for [name=\"name\"]" }),
           ("email", { type := "string", description := "Value for [name=\"email\"]" })],
        required := ["name", "email"] },
    urlPatterns := ["https://site.example/form"] }

/-! ## Theorems -/

/-- C3: for every list of ToolProposal, `generateToolFiles` is deterministic
(two runs on equal input produce identical output), returns exactly one
generated file per proposal, and the files appear in the proposals' order
with path `tools/<name>.ts` for each proposal's name. -/
theorem generateToolFiles_deterministic_count_order :
    ∀ proposals : List ToolProposal,
      generateToolFiles proposals = generateToolFiles proposals ∧
      (generateToolFiles proposals).length = proposals.length ∧
      (generateToolFiles proposals).map (fun f => f.path) =
        proposals.map (fun p => "tools/" ++ p.name ++ ".ts") := by
  intro ps
  refine ⟨rfl, ?_, ?_⟩
  · simp [generateToolFiles]
  · simp [generateToolFiles]

/-- C7: for every js-call proposal whose declared return type is "void", the
generated execute body invokes the resolved function without capturing or
referencing its return value (its lines are exactly the guarded call, the
bare `fn(...)` invocation — no `const result` binding — and the fixed
success message); for every other declared return type it captures the
result and packages it with `jsonContent`. -/
theorem generateJSCallBody_void_vs_capture :
    ∀ a : JSCallAction,
      (a.returnType = some "void" →
        generateJSCallBody a = joinLines
          ["    try \x7b",
           "      // Call the page\x27s JS function directly",
           "      const fn = " ++ a.functionPath ++ ";",
           "      if (typeof fn !== \"function\") \x7b",
           "        return textContent(\"Error: " ++ a.functionPath ++
             " is not available on this page\");",
           "      \x7d",
           "      fn(" ++ jsCallArgs a ++ ");",
           "      return textContent(\"Action completed successfully\");",
           "    \x7d catch (error) \x7b",
           "      return textContent(`Error calling " ++ a.functionPath ++
             ": $\x7berror\x7d`);",
           "    \x7d"]) ∧
      (a.returnType ≠ some "void" →
        generateJSCallBody a = joinLines
          ["    try \x7b",
           "      // Call the page\x27s JS function directly",
           "      const fn = " ++ a.functionPath ++ ";",
           "      if (typeof fn !== \"function\") \x7b",
           "        return textContent(\"Error: " ++ a.functionPath ++
             " is not available on this page\");",
           "      \x7d",
           "      const result = fn(" ++ jsCallArgs a ++ ");",
           "      return jsonContent(result);",
           "    \x7d catch (error) \x7b",
           "      return textContent(`Error calling " ++ a.functionPath ++
             ": $\x7berror\x7d`);",
           "    \x7d"]) := by
  intro a
  constructor
  · intro h
    simp [generateJSCallBody, jsCallLines, h]
  · intro h
    simp [generateJSCallBody, jsCallLines, h]

/-- C7 witness: the two branches at concrete proposals (void return, object
return). -/
theorem generateJSCallBody_void_vs_capture_witness :
    generateJSCallBody voidCallAct = joinLines
      ["    try \x7b",
       "      // Call the page\x27s JS function directly",
       "      const fn = " ++ voidCallAct.functionPath ++ ";",
       "      if (typeof fn !== \"function\") \x7b",
       "        return textContent(\"Error: " ++ voidCallAct.functionPath ++
         " is not available on this page\");",
       "      \x7d",
       "      fn(" ++ jsCallArgs voidCallAct ++ ");",
       "      return textContent(\"Action completed successfully\");",
       "    \x7d catch (error) \x7b",
       "      return textContent(`Error calling " ++ voidCallAct.functionPath ++
         ": $\x7berror\x7d`);",
       "    \x7d"] ∧
    generateJSCallBody objCallAct = joinLines
      ["    try \x7b",
       "      // Call the page\x27s JS function directly",
       "      const fn = " ++ objCallAct.functionPath ++ ";",
       "      if (typeof fn !== \"function\") \x7b",
       "        return textContent(\"Error: " ++ objCallAct.functionPath ++
         " is not available on this page\");",
       "      \x7d",
       "      const result = fn(" ++ jsCallArgs objCallAct ++ ");",
       "      return jsonContent(result);",
       "    \x7d catch (error) \x7b",
       "      return textContent(`Error calling " ++ objCallAct.functionPath ++
         ": $\x7berror\x7d`);",
       "    \x7d"] :=
  ⟨(generateJSCallBody_void_vs_capture voidCallAct).1 rfl,
   (generateJSCallBody_void_vs_capture objCallAct).2 (by decide)⟩

/-- C8: generated execute bodies convert runtime failures into textual error
results: the js-call body opens with the availability guard returning a
textual error when the function path is not callable and is wrapped in a
try/catch whose handler returns the error as text; every non-read DOM step
queries its element and throws a descriptive not-found error before acting;
and the whole dom-action body is wrapped in a try/catch whose handler
returns the error as text, so the thrown not-found error is caught there and
no fault escapes either body. -/
theorem generated_bodies_catch_failures :
    (∀ a : JSCallAction, ∃ mid : List String,
      jsCallLines a =
        ["    try \x7b",
         "      // Call the page\x27s JS function directly",
         "      const fn = " ++ a.functionPath ++ ";",
         "      if (typeof fn !== \"function\") \x7b",
         "        return textContent(\"Error: " ++ a.functionPath ++
           " is not available on this page\");",
         "      \x7d"] ++ mid ++
        ["    \x7d catch (error) \x7b",
         "      return textContent(`Error calling " ++ a.functionPath ++
           ": $\x7berror\x7d`);",
         "    \x7d"]) ∧
    (∀ (step : DOMActionStep) (i : Nat), step.action ≠ DOMStepAction.read →
      ∃ actLines : List String,
        generateDOMStep step i = joinLines (
          ("      const el_" ++ toString i ++ " = document.querySelector(" ++
            jsStringify step.selector ++ ");") ::
          ("      if (!el_" ++ toString i ++
            ") throw new Error(\"Element not found: " ++ step.selector ++
            "\");") :: actLines)) ∧
    (∀ a : DOMAction, ∃ mid : List String,
      domBodyLines a = "    try \x7b" :: (mid ++
        ["    \x7d catch (error) \x7b",
         "      return textContent(`Error: $\x7berror\x7d`);",
         "    \x7d"])) := by
  refine ⟨?_, ?_, ?_⟩
  · intro a
    by_cases h : a.returnType = some "void"
    · refine ⟨["      fn(" ++ jsCallArgs a ++ ");",
               "      return textContent(\"Action completed successfully\");"], ?_⟩
      simp [jsCallLines, h]
    · refine ⟨["      const result = fn(" ++ jsCallArgs a ++ ");",
               "      return jsonContent(result);"], ?_⟩
      simp [jsCallLines, h]
  · intro step i h
    cases ha : step.action with
    | read => exact absurd ha h
    | click =>
      refine ⟨["      (el_" ++ toString i ++ " as HTMLElement).click();"], ?_⟩
      simp [generateDOMStep, ha]
    | fill =>
      refine ⟨["      (el_" ++ toString i ++ " as HTMLInputElement).value = " ++
        (if optTruthy step.inputProperty then "input." ++ step.inputProperty.getD ""
         else jsStringify (step.staticValue.getD "")) ++ ";",
        "      el_" ++ toString i ++
          ".dispatchEvent(new Event(\"input\", \x7b bubbles: true \x7d));",
        "      el_" ++ toString i ++
          ".dispatchEvent(new Event(\"change\", \x7b bubbles: true \x7d));"], ?_⟩
      simp [generateDOMStep, ha]
    | select =>
      refine ⟨["      (el_" ++ toString i ++ " as HTMLSelectElement).value = " ++
        (if optTruthy step.inputProperty then "input." ++ step.inputProperty.getD ""
         else jsStringify (step.staticValue.getD "")) ++ ";",
        "      el_" ++ toString i ++
          ".dispatchEvent(new Event(\"change\", \x7b bubbles: true \x7d));"], ?_⟩
      simp [generateDOMStep, ha]
    | check =>
      refine ⟨["      (el_" ++ toString i ++ " as HTMLInputElement).checked = true;",
        "      el_" ++ toString i ++
          ".dispatchEvent(new Event(\"change\", \x7b bubbles: true \x7d));"], ?_⟩
      simp [generateDOMStep, ha]
    | submit =>
      refine ⟨["      (el_" ++ toString i ++ " as HTMLFormElement).submit();"], ?_⟩
      simp [generateDOMStep, ha]
    | scroll =>
      refine ⟨["      el_" ++ toString i ++
        ".scrollIntoView(\x7b behavior: \"smooth\" \x7d);"], ?_⟩
      simp [generateDOMStep, ha]
  · intro a
    refine ⟨domStepLines 0 a.steps ++ [domRetLine a], ?_⟩
    simp [domBodyLines]

/-- C8 witness: the not-found guard of a concrete non-read step. -/
theorem generated_bodies_catch_failures_witness :
    ∃ actLines : List String,
      generateDOMStep clickStepFx 3 = joinLines (
        ("      const el_" ++ toString 3 ++ " = document.querySelector(" ++
          jsStringify clickStepFx.selector ++ ");") ::
        ("      if (!el_" ++ toString 3 ++
          ") throw new Error(\"Element not found: " ++ clickStepFx.selector ++
          "\");") :: actLines) :=
  generated_bodies_catch_failures.2.1 clickStepFx 3 (by decide)

/-- C6: for every dom-action whose final step is a read, the generated body
ends (right before its catch handler) with a return of that final read's
result defaulted by the fixed fallback text "No content found"; and the code
of a read step on attribute textContent (declared or defaulted) queries its
element and reads it with optional chaining — no existence guard and no
throw — so the element is never required to exist. -/
theorem domAction_final_read_fallback :
    (∀ (a : DOMAction) (last : DOMActionStep), a.steps.getLast? = some last →
      last.action = DOMStepAction.read →
      generateDOMActionBody a = joinLines (
        ["    try \x7b"] ++ domStepLines 0 a.steps ++
        ["      return textContent(result_" ++ toString (a.steps.length - 1) ++
           " ?? \"No content found\");",
         "    \x7d catch (error) \x7b",
         "      return textContent(`Error: $\x7berror\x7d`);",
         "    \x7d"])) ∧
    (∀ (step : DOMActionStep) (i : Nat) (attr : String),
      step.action = DOMStepAction.read →
      step.readAttribute.getD "textContent" = attr →
      attr = "textContent" ∨ attr = "innerHTML" ∨ attr = "outerHTML" →
      generateDOMStep step i =
        "      const el_" ++ toString i ++ " = document.querySelector(" ++
          jsStringify step.selector ++ ");" ++ "\n" ++
        ("      const result_" ++ toString i ++ " = el_" ++ toString i ++
          "?." ++ attr ++ ";")) := by
  constructor
  · intro a last h1 h2
    simp [generateDOMActionBody, domBodyLines, domRetLine, h1, h2]
  · intro step i attr h1 ha hor
    simp only [generateDOMStep, h1, ha]
    rw [if_pos hor]

/-- C6 witness: a one-step read dom-action at a concrete selector. -/
theorem domAction_final_read_fallback_witness :
    generateDOMActionBody readActFx = joinLines (
      ["    try \x7b"] ++ domStepLines 0 readActFx.steps ++
      ["      return textContent(result_" ++ toString (readActFx.steps.length - 1) ++
         " ?? \"No content found\");",
       "    \x7d catch (error) \x7b",
       "      return textContent(`Error: $\x7berror\x7d`);",
       "    \x7d"]) ∧
    generateDOMStep readStepFx 0 =
      "      const el_" ++ toString 0 ++ " = document.querySelector(" ++
        jsStringify readStepFx.selector ++ ");" ++ "\n" ++
      ("      const result_" ++ toString 0 ++ " = el_" ++ toString 0 ++
        "?." ++ "textContent" ++ ";") :=
  ⟨domAction_final_read_fallback.1 readActFx readStepFx rfl rfl,
   domAction_final_read_fallback.2 readStepFx 0 "textContent" rfl rfl (Or.inl rfl)⟩

/-- Auxiliary invariant propagation for C9: if the step counter equals the
log length and every entry's stepIndex is its position, both facts survive
any further run of steps. -/
theorem runSteps_invariant_aux :
    ∀ (steps : List (SessionStepOptions × StepOutcome)) (f : SessionFiles),
      f.state.stepCount = f.log.length →
      (∀ k (hk : k < f.log.length), (f.log.get ⟨k, hk⟩).stepIndex = k) →
      (runSteps f steps).state.stepCount = (runSteps f steps).log.length ∧
      ∀ k (hk : k < (runSteps f steps).log.length),
        ((runSteps f steps).log.get ⟨k, hk⟩).stepIndex = k := by
  intro steps
  induction steps with
  | nil => exact fun f h1 h2 => ⟨h1, h2⟩
  | cons s rest ih =>
    intro f h1 h2
    refine ih (sessionStep f s.1 s.2) ?_ ?_
    · simp [sessionStep, h1]
    · intro k hk
      simp only [sessionStep, List.length_append, List.length_cons,
        List.length_nil] at hk
      simp only [sessionStep, List.get_eq_getElem]
      by_cases hlt : k < f.log.length
      · rw [List.getElem_append_left hlt]
        exact h2 k hlt
      · have hk' : k = f.log.length := by omega
        subst hk'
        rw [List.getElem_append_right (le_refl _)]
        simpa [stepEntry] using h1

/-- C9: `sessionStart` initializes an empty action log and a zero step
counter; every `sessionStep` appends exactly one entry whose stepIndex is
the step counter read at the start of the operation and then increments the
counter; hence after any sequence of steps the k-th log entry (0-based) has
stepIndex k and the step counter equals the log length. -/
theorem session_log_stepIndex_invariant :
    (∀ ws goal url t dir,
      (sessionStart ws goal url t dir).log = [] ∧
      (sessionStart ws goal url t dir).state.stepCount = 0) ∧
    (∀ f opts oc,
      (sessionStep f opts oc).log = f.log ++ [stepEntry f opts oc] ∧
      (stepEntry f opts oc).stepIndex = f.state.stepCount ∧
      (sessionStep f opts oc).state.stepCount = f.state.stepCount + 1) ∧
    (∀ ws goal url t dir steps,
      (runSteps (sessionStart ws goal url t dir) steps).state.stepCount =
        (runSteps (sessionStart ws goal url t dir) steps).log.length ∧
      ∀ k (hk : k < (runSteps (sessionStart ws goal url t dir) steps).log.length),
        ((runSteps (sessionStart ws goal url t dir) steps).log.get ⟨k, hk⟩).stepIndex
          = k) := by
  refine ⟨fun ws goal url t dir => ⟨rfl, rfl⟩,
          fun f opts oc => ⟨rfl, rfl, rfl⟩,
          fun ws goal url t dir steps => ?_⟩
  refine runSteps_invariant_aux steps (sessionStart ws goal url t dir) rfl ?_
  intro k hk
  simp [sessionStart] at hk

/-- C9 witness: a concrete two-step session; the second entry (index 1) has
stepIndex 1 and the counter equals the log length. -/
theorem session_log_stepIndex_invariant_witness :
    (runSteps (sessionStart "ws" none "https://a.example" 5 "dir")
        [({ action := SessionAction.click, selector := some "#b" },
          { success := true, error := none, pageUrl := "https://a.example", timestamp := 6 }),
         ({ action := SessionAction.wait },
          { success := true, error := none, pageUrl := "https://a.example", timestamp := 7 })]).state.stepCount =
      (runSteps (sessionStart "ws" none "https://a.example" 5 "dir")
        [({ action := SessionAction.click, selector := some "#b" },
          { success := true, error := none, pageUrl := "https://a.example", timestamp := 6 }),
         ({ action := SessionAction.wait },
          { success := true, error := none, pageUrl := "https://a.example", timestamp := 7 })]).log.length ∧
    (1 : Nat) < 2 ∧
    ∀ hk : 1 < (runSteps (sessionStart "ws" none "https://a.example" 5 "dir")
        [({ action := SessionAction.click, selector := some "#b" },
          { success := true, error := none, pageUrl := "https://a.example", timestamp := 6 }),
         ({ action := SessionAction.wait },
          { success := true, error := none, pageUrl := "https://a.example", timestamp := 7 })]).log.length,
      ((runSteps (sessionStart "ws" none "https://a.example" 5 "dir")
        [({ action := SessionAction.click, selector := some "#b" },
          { success := true, error := none, pageUrl := "https://a.example", timestamp := 6 }),
         ({ action := SessionAction.wait },
          { success := true, error := none, pageUrl := "https://a.example", timestamp := 7 })]).log.get ⟨1, hk⟩).stepIndex = 1 := by
  refine ⟨(session_log_stepIndex_invariant.2.2 _ _ _ _ _ _).1, by decide, ?_⟩
  intro hk
  exact (session_log_stepIndex_invariant.2.2 "ws" none "https://a.example" 5 "dir" _).2 1 hk

/-- The steps of a group accumulator change under `processEntry` only by
appending one step carrying the entry's action, and only when that action is
neither wait nor navigate. -/
theorem processEntry_steps_eq (acc : GroupAcc) (e : ActionLogEntry) :
    (processEntry acc e).steps = acc.steps ∨
    ∃ st : ToolActionStep, st.action = e.action ∧
      ¬(e.action = SessionAction.wait ∨ e.action = SessionAction.navigate) ∧
      (processEntry acc e).steps = acc.steps ++ [st] := by
  by_cases h1 : e.action = SessionAction.wait ∨ e.action = SessionAction.navigate
  · left
    simp [processEntry, h1]
  · right
    by_cases h2 : (e.action = SessionAction.fill ∨ e.action = SessionAction.select)
        ∧ optTruthy e.value
    · refine ⟨⟨e.action, (e.selector).getD "",
        some (inferPropertyName ((e.selector).getD "") e.action.asString),
        none, none⟩, rfl, h1, ?_⟩
      simp [processEntry, h1, h2]
    · refine ⟨⟨e.action, (e.selector).getD "", none, none, none⟩, rfl, h1, ?_⟩
      simp [processEntry, h1, h2]

/-- Folding `processEntry` over entries preserves "no step is a wait or a
navigate". -/
theorem foldl_processEntry_no_wait :
    ∀ (entries : List ActionLogEntry) (acc : GroupAcc),
      (∀ s ∈ acc.steps,
        ¬(s.action = SessionAction.wait ∨ s.action = SessionAction.navigate)) →
      ∀ s ∈ (entries.foldl processEntry acc).steps,
        ¬(s.action = SessionAction.wait ∨ s.action = SessionAction.navigate) := by
  intro entries
  induction entries with
  | nil => exact fun acc h => h
  | cons e rest ih =>
    intro acc h
    simp only [List.foldl_cons]
    apply ih
    intro s hs
    rcases processEntry_steps_eq acc e with heq | ⟨st, hact, hne, heq⟩
    · rw [heq] at hs
      exact h s hs
    · rw [heq] at hs
      rcases List.mem_append.mp hs with hs | hs
      · exact h s hs
      · have hst : s = st := by simpa using hs
        rw [hst, hact]
        exact hne

/-- The grouping fold ignores entries that are not kept (untagged or
failed). -/
theorem buildToolMap_filter :
    ∀ (log : List ActionLogEntry) (m : List (String × List ActionLogEntry)),
      buildToolMap m log = buildToolMap m (log.filter keptEntry) := by
  intro log
  induction log with
  | nil => intro m; rfl
  | cons e rest ih =>
    intro m
    by_cases h : keptEntry e
    · simp [buildToolMap, List.filter_cons, h, ih]
    · simp [buildToolMap, List.filter_cons, h, ih]

/-- C2: tool derivation at session close keeps only successful, tool-tagged
entries (filtering the log to kept entries changes nothing), drops
wait/navigate entries from every derived step list, names each fill/select
property by the locator's name attribute, else id, else placeholder, else
`<action>Value`, camel-casing the extracted token; and the scenario log
(fill name→"Ann" tagged fillForm, fill email→"a@b.com" tagged fillForm,
untagged wait) yields exactly one tool `fillForm` with two steps and a
two-property all-required schema. -/
theorem session_tool_derivation :
    (∀ log, groupActionsIntoTools log =
      groupActionsIntoTools (log.filter keptEntry)) ∧
    (∀ log, ∀ t ∈ groupActionsIntoTools log, ∀ s ∈ t.steps,
      ¬(s.action = SessionAction.wait ∨ s.action = SessionAction.navigate)) ∧
    inferPropertyName "[name=\x27firstName\x27]" "fill" = "firstName" ∧
    inferPropertyName "#email-input" "fill" = "emailInput" ∧
    inferPropertyName "[placeholder=\"Your Email\"]" "fill" = "yourEmail" ∧
    inferPropertyName "div.field" "select" = "selectValue" ∧
    groupActionsIntoTools demoLog = [demoFillFormTool] := by
  refine ⟨?_, ?_, by decide, by decide, by decide, by decide, by decide⟩
  · intro log
    unfold groupActionsIntoTools
    rw [buildToolMap_filter]
  · intro log t ht s hs
    unfold groupActionsIntoTools at ht
    rcases List.mem_map.mp ht with ⟨g, hg, hfg⟩
    rw [← hfg] at hs
    simp only at hs
    exact foldl_processEntry_no_wait g.2 _ (by intro s2 hs2; simp at hs2) s hs

/-- C2 witness: the derived scenario tool is in the derived list and its
first step is neither a wait nor a navigate. -/
theorem session_tool_derivation_witness :
    ¬(fxStepName.action = SessionAction.wait ∨
      fxStepName.action = SessionAction.navigate) :=
  session_tool_derivation.2.1 demoLog demoFillFormTool (by decide)
    fxStepName (by decide)

/-- C10: `parseToolProposals` performs no per-element validation — whenever
the extracted payload decodes to a JSON array, that array is returned
unchanged as the proposal list, whatever its elements are; in particular the
number list "[1, 2, 3]" is accepted and returned with the same length. -/
theorem parseToolProposals_no_element_validation :
    (∀ (s : String) (xs : List Json),
      jsonParse (extractFencePayload s) = Except.ok (Json.arr xs) →
      parseToolProposals s = Except.ok xs) ∧
    parseToolProposals "[1, 2, 3]" =
      Except.ok [Json.num "1", Json.num "2", Json.num "3"] := by
  constructor
  · intro s xs h
    simp [parseToolProposals, h]
  · rfl

/-- C10 witness: a concrete array payload of non-proposal shape is returned
unchanged. -/
theorem parseToolProposals_no_element_validation_witness :
    parseToolProposals "[true]" = Except.ok [Json.bool true] :=
  parseToolProposals_no_element_validation.1 "[true]" [Json.bool true] rfl

/-- C4 (amended): the payload is the first fenced block when present, else
the whole reply; a bare decoded list is returned, the inner list of a
`tools` wrapper is returned, an invalid payload raises a decode fault
carrying the parse failure, and a decoded value that is neither a bare list
nor the named-list wrapper raises the distinct shape fault — except a
decoded `null`, where the wrapper-field access itself faults (still wrapped
as a parse failure) instead of the shape fault. -/
theorem parseToolProposals_fault_paths :
    (∀ (s m : String),
      jsonParse (extractFencePayload s) = Except.error m →
      parseToolProposals s = Except.error (ParseFault.decode m)) ∧
    (∀ (s : String) (xs : List Json),
      jsonParse (extractFencePayload s) = Except.ok (Json.arr xs) →
      parseToolProposals s = Except.ok xs) ∧
    (∀ (s : String) (fields : List (String × Json)) (ts : List Json),
      jsonParse (extractFencePayload s) = Except.ok (Json.obj fields) →
      jsonLookup "tools" fields = some (Json.arr ts) →
      parseToolProposals s = Except.ok ts) ∧
    (∀ (s : String) (fields : List (String × Json)),
      jsonParse (extractFencePayload s) = Except.ok (Json.obj fields) →
      (∀ ts : List Json, jsonLookup "tools" fields ≠ some (Json.arr ts)) →
      parseToolProposals s = Except.error ParseFault.shape) ∧
    (∀ (s : String) (b : Bool),
      jsonParse (extractFencePayload s) = Except.ok (Json.bool b) →
      parseToolProposals s = Except.error ParseFault.shape) ∧
    (∀ (s lit : String),
      jsonParse (extractFencePayload s) = Except.ok (Json.num lit) →
      parseToolProposals s = Except.error ParseFault.shape) ∧
    (∀ (s t : String),
      jsonParse (extractFencePayload s) = Except.ok (Json.str t) →
      parseToolProposals s = Except.error ParseFault.shape) ∧
    (∀ s : String,
      jsonParse (extractFencePayload s) = Except.ok Json.null →
      parseToolProposals s = Except.error ParseFault.nullAccess) ∧
    (∃ m, parseToolProposals "not json" = Except.error (ParseFault.decode m)) ∧
    parseToolProposals "\x7b\"name\": \"x\"\x7d" = Except.error ParseFault.shape ∧
    (∀ m, ParseFault.decode m ≠ ParseFault.shape) := by
  refine ⟨?_, ?_, ?_, ?_, ?_, ?_, ?_, ?_, ⟨"Unexpected token n in JSON", rfl⟩,
    rfl, by intro m h; exact ParseFault.noConfusion h⟩
  · intro s m h
    simp [parseToolProposals, h]
  · intro s xs h
    simp [parseToolProposals, h]
  · intro s fields ts h1 h2
    simp [parseToolProposals, h1, h2]
  · intro s fields h1 h2
    rcases hl : jsonLookup "tools" fields with _ | v
    · simp [parseToolProposals, h1, hl]
    · cases v with
      | arr ts => exact absurd hl (h2 ts)
      | null => simp [parseToolProposals, h1, hl]
      | bool b => simp [parseToolProposals, h1, hl]
      | num lit => simp [parseToolProposals, h1, hl]
      | str t => simp [parseToolProposals, h1, hl]
      | obj fs => simp [parseToolProposals, h1, hl]
  · intro s b h
    simp [parseToolProposals, h]
  · intro s lit h
    simp [parseToolProposals, h]
  · intro s t h
    simp [parseToolProposals, h]
  · intro s h
    simp [parseToolProposals, h]

/-- C4 witness: the wrapper path and a shape-fault path at concrete
payloads. -/
theorem parseToolProposals_fault_paths_witness :
    parseToolProposals "\x7b\"tools\": [false]\x7d" =
      Except.ok [Json.bool false] ∧
    parseToolProposals "42" = Except.error ParseFault.shape :=
  ⟨parseToolProposals_fault_paths.2.2.1 "\x7b\"tools\": [false]\x7d"
     [("tools", Json.arr [Json.bool false])] [Json.bool false] rfl rfl,
   parseToolProposals_fault_paths.2.2.2.2.2.1 "42" "42" rfl⟩

/-- C4 counterexample: the payload "null" is valid JSON whose decoded value
is neither a bare list nor the named-list wrapper, yet the raised fault is
the null property-access fault, not the shape fault (their messages also
differ). -/
theorem parseToolProposals_null_not_shape_fault :
    parseToolProposals "null" = Except.error ParseFault.nullAccess ∧
    ParseFault.nullAccess ≠ ParseFault.shape ∧
    parseFaultMessage ParseFault.nullAccess ≠
      parseFaultMessage ParseFault.shape := by
  exact ⟨rfl, by decide, by decide⟩

/-- C5: the markup pass chooses each element's locator by the fixed
preference order id (exactly `#<id>`), then name attribute, then aria-label,
then placeholder, then the visible text truncated to 50 characters; an
element with none of these (as truthy values) is dropped — `none` is
returned instead of an entry with a broken locator.  Concretely, markup with
an id-only button and an attribute-less, text-less button yields exactly the
locator `#add-btn`. -/
theorem parseHTMLAttributes_locator_preference :
    (∀ (tag attrsStr : String) (textContent : Option String),
      (optTruthy (getAttr "id" attrsStr) = true →
        (parseHTMLAttributes tag attrsStr textContent).map (fun el => el.selector)
          = some ("#" ++ (getAttr "id" attrsStr).getD "")) ∧
      (optTruthy (getAttr "id" attrsStr) = false →
        optTruthy (getAttr "name" attrsStr) = true →
        (parseHTMLAttributes tag attrsStr textContent).map (fun el => el.selector)
          = some (tag ++ "[name=\"" ++ (getAttr "name" attrsStr).getD "" ++
            "\"]")) ∧
      (optTruthy (getAttr "id" attrsStr) = false →
        optTruthy (getAttr "name" attrsStr) = false →
        optTruthy (getAttr "aria-label" attrsStr) = true →
        (parseHTMLAttributes tag attrsStr textContent).map (fun el => el.selector)
          = some (tag ++ "[aria-label=\"" ++
            (getAttr "aria-label" attrsStr).getD "" ++ "\"]")) ∧
      (optTruthy (getAttr "id" attrsStr) = false →
        optTruthy (getAttr "name" attrsStr) = false →
        optTruthy (getAttr "aria-label" attrsStr) = false →
        optTruthy (getAttr "placeholder" attrsStr) = true →
        (parseHTMLAttributes tag attrsStr textContent).map (fun el => el.selector)
          = some (tag ++ "[placeholder=\"" ++
            (getAttr "placeholder" attrsStr).getD "" ++ "\"]")) ∧
      (optTruthy (getAttr "id" attrsStr) = false →
        optTruthy (getAttr "name" attrsStr) = false →
        optTruthy (getAttr "aria-label" attrsStr) = false →
        optTruthy (getAttr "placeholder" attrsStr) = false →
        optTruthy textContent = true →
        (parseHTMLAttributes tag attrsStr textContent).map (fun el => el.selector)
          = some (tag ++ ":has-text(\"" ++ (textContent.getD "").take 50 ++
            "\")")) ∧
      (optTruthy (getAttr "id" attrsStr) = false →
        optTruthy (getAttr "name" attrsStr) = false →
        optTruthy (getAttr "aria-label" attrsStr) = false →
        optTruthy (getAttr "placeholder" attrsStr) = false →
        optTruthy textContent = false →
        parseHTMLAttributes tag attrsStr textContent = none)) ∧
    (extractFromHTML "<button id=\"add-btn\">Add</button><button></button>").map
      (fun e => e.selector) = ["#add-btn"] := by
  refine ⟨?_, rfl⟩
  intro tag attrsStr textContent
  refine ⟨?_, ?_, ?_, ?_, ?_, ?_⟩
  · intro h1
    simp [parseHTMLAttributes, h1]
  · intro h1 h2
    simp [parseHTMLAttributes, h1, h2]
  · intro h1 h2 h3
    simp [parseHTMLAttributes, h1, h2, h3]
  · intro h1 h2 h3 h4
    simp [parseHTMLAttributes, h1, h2, h3, h4]
  · intro h1 h2 h3 h4 h5
    simp [parseHTMLAttributes, h1, h2, h3, h4, h5]
  · intro h1 h2 h3 h4 h5
    simp [parseHTMLAttributes, h1, h2, h3, h4, h5]

/-- C5 witness: the id branch at a concrete attribute string and the
drop-it branch at an attribute-less, text-less element. -/
theorem parseHTMLAttributes_locator_preference_witness :
    (parseHTMLAttributes "button" " id=\"add-btn\"" (some "Add")).map
      (fun el => el.selector) =
      some ("#" ++ (getAttr "id" " id=\"add-btn\"").getD "") ∧
    parseHTMLAttributes "button" "" (some "") = none :=
  ⟨(parseHTMLAttributes_locator_preference.1 "button" " id=\"add-btn\""
      (some "Add")).1 rfl,
   ((parseHTMLAttributes_locator_preference.1 "button" "" (some "")).2.2.2.2.2)
     rfl rfl rfl rfl rfl⟩

/-- Selector counting distributes over list append. -/
theorem countSel_append (a b : List InteractiveElement) (s : String) :
    countSel (a ++ b) s = countSel a s + countSel b s := by
  simp [countSel, List.filter_append]

/-- Elements of a cons of regions. -/
theorem elemsOf_cons (r : Region) (rs : List Region) :
    elemsOf (r :: rs) = r.interactiveElements ++ elemsOf rs := by
  simp [elemsOf]

/-- Elements of an append of region lists. -/
theorem elemsOf_append (a b : List Region) :
    elemsOf (a ++ b) = elemsOf a ++ elemsOf b := by
  simp [elemsOf]

/-- A selector present in the existing set never appears among the
deduplication survivors. -/
theorem survivors_count_mem :
    ∀ (els : List InteractiveElement) (existing : List String) (s : String),
      s ∈ existing → countSel (survivors existing els) s = 0 := by
  intro els
  induction els with
  | nil => intro existing s _; rfl
  | cons e rest ih =>
    intro existing s h
    by_cases he : e.selector ∈ existing
    · simp only [survivors, if_pos he]
      exact ih existing s h
    · have hne : e.selector ≠ s := fun heq => he (heq ▸ h)
      simp only [survivors, if_neg he]
      have htail := ih (e.selector :: existing) s (List.mem_cons_of_mem _ h)
      simpa [countSel, List.filter_cons, hne] using htail

/-- A selector not in the existing set survives exactly once when some
markup element carries it, else not at all. -/
theorem survivors_count_not_mem :
    ∀ (els : List InteractiveElement) (existing : List String) (s : String),
      s ∉ existing →
      countSel (survivors existing els) s =
        if s ∈ els.map (fun e => e.selector) then 1 else 0 := by
  intro els
  induction els with
  | nil => intro existing s _; simp [survivors, countSel]
  | cons e rest ih =>
    intro existing s h
    by_cases he : e.selector ∈ existing
    · have hne : e.selector ≠ s := fun heq => h (heq ▸ he)
      simp only [survivors, if_pos he]
      rw [ih existing s h]
      simp [List.map_cons, List.mem_cons, Ne.symm hne]
    · by_cases hes : e.selector = s
      · simp only [survivors, if_neg he]
        have h0 := survivors_count_mem rest (e.selector :: existing) s
          (List.mem_cons.mpr (Or.inl hes.symm))
        simp only [countSel] at h0 ⊢
        rw [List.filter_cons, if_pos (show ((e.selector == s) = true) by simp [hes]),
          List.length_cons, h0]
        rw [if_pos (show s ∈ List.map (fun e => e.selector) (e :: rest) by
          simp [hes.symm])]
      · have hnotin : s ∉ (e.selector :: existing) := by
          intro hmem
          rcases List.mem_cons.mp hmem with h' | h'
          · exact hes h'.symm
          · exact h h'
        simp only [survivors, if_neg he]
        have := ih (e.selector :: existing) s hnotin
        simp only [countSel, List.filter_cons] at this ⊢
        simp [hes, this, List.map_cons, List.mem_cons, Ne.symm hes]

/-- The first unknown-region index is in bounds. -/
theorem findUnknownIdx_lt_length :
    ∀ (regions : List Region) (j : Nat),
      findUnknownIdx regions = some j → j < regions.length := by
  intro regions
  induction regions with
  | nil => intro j h; simp [findUnknownIdx] at h
  | cons r rs ih =>
    intro j h
    by_cases hr : r.type = "unknown"
    · simp only [findUnknownIdx, if_pos hr, Option.some.injEq] at h
      rw [← h]
      simp
    · simp only [findUnknownIdx, if_neg hr] at h
      cases hfind : findUnknownIdx rs with
      | none => rw [hfind] at h; simp at h
      | some a =>
        rw [hfind] at h
        simp only [Option.map_some', Option.some.injEq] at h
        have ha := ih a hfind
        rw [← h]
        simp only [List.length_cons]
        omega

/-- Appending elements into the region at an in-bounds index adds exactly
their selector count. -/
theorem countSel_elemsOf_listModify :
    ∀ (regions : List Region) (j : Nat) (adds : List InteractiveElement)
      (s : String), j < regions.length →
      countSel (elemsOf (listModify
        (fun r => { r with interactiveElements := r.interactiveElements ++ adds })
        j regions)) s =
        countSel (elemsOf regions) s + countSel adds s := by
  intro regions
  induction regions with
  | nil => intro j adds s h; simp at h
  | cons r rs ih =>
    intro j adds s h
    cases j with
    | zero =>
      simp [listModify, elemsOf_cons, countSel_append]
      omega
    | succ n =>
      simp only [listModify, elemsOf_cons, countSel_append]
      rw [ih n adds s (by simpa using h)]
      omega

/-- Filter version of `countSel_elemsOf_listModify`: when no added element
matches the predicate, the filtered element list is unchanged. -/
theorem filter_elemsOf_listModify :
    ∀ (regions : List Region) (j : Nat) (adds : List InteractiveElement)
      (p : InteractiveElement → Bool), j < regions.length →
      adds.filter p = [] →
      (elemsOf (listModify
        (fun r => { r with interactiveElements := r.interactiveElements ++ adds })
        j regions)).filter p = (elemsOf regions).filter p := by
  intro regions
  induction regions with
  | nil => intro j adds p h _; simp at h
  | cons r rs ih =>
    intro j adds p h hadds
    cases j with
    | zero => simp [listModify, elemsOf_cons, List.filter_append, hadds]
    | succ n =>
      simp only [listModify, elemsOf_cons, List.filter_append]
      rw [ih n adds p (by simpa using h) hadds]

/-- The selector set of the tree-pass regions is the selector list of its
elements. -/
theorem allSelectors_eq (regions : List Region) :
    allSelectors regions = (elemsOf regions).map (fun e => e.selector) := by
  simp only [allSelectors, elemsOf, List.map_flatten, List.map_map]
  rfl

/-- A non-zero selector count is exactly membership of the selector list. -/
theorem countSel_ne_zero_iff (els : List InteractiveElement) (s : String) :
    countSel els s ≠ 0 ↔ s ∈ els.map (fun e => e.selector) := by
  induction els with
  | nil => simp [countSel]
  | cons e rest ih =>
    by_cases h : e.selector = s
    · simp [countSel, List.filter_cons, h]
    · simp only [countSel, List.filter_cons] at ih ⊢
      simp [h, ih, List.map_cons, List.mem_cons, Ne.symm h]

/-- Shape of the merge when an unknown region exists: survivors are
appended into it. -/
theorem mergeHTMLElements_eq_modify (regions : List Region)
    (htmlEls : List InteractiveElement) (j : Nat)
    (hf : findUnknownIdx regions = some j) :
    mergeHTMLElements regions htmlEls =
      listModify (fun r => { r with interactiveElements :=
        r.interactiveElements ++ survivors (allSelectors regions) htmlEls })
        j regions := by
  unfold mergeHTMLElements
  rw [hf]

/-- Shape of the merge when no unknown region exists and nothing survives:
the regions are unchanged. -/
theorem mergeHTMLElements_eq_same (regions : List Region)
    (htmlEls : List InteractiveElement)
    (hf : findUnknownIdx regions = none)
    (ha : survivors (allSelectors regions) htmlEls = []) :
    mergeHTMLElements regions htmlEls = regions := by
  unfold mergeHTMLElements
  rw [hf, ha]
  rfl

/-- Shape of the merge when no unknown region exists and something survives:
a fresh unknown region is appended. -/
theorem mergeHTMLElements_eq_append (regions : List Region)
    (htmlEls : List InteractiveElement)
    (hf : findUnknownIdx regions = none)
    (ha : survivors (allSelectors regions) htmlEls ≠ []) :
    mergeHTMLElements regions htmlEls =
      regions ++
        [{ type := "unknown", selector := "body", interactiveElements := survivors (allSelectors regions) htmlEls }] := by
  unfold mergeHTMLElements
  rw [hf]
  show (if (survivors (allSelectors regions) htmlEls).isEmpty = true
    then regions else _) = _
  rw [if_neg (by simpa [List.isEmpty_iff] using ha)]

/-- The merged model's selector count is the tree count plus the surviving
markup count. -/
theorem mergeHTMLElements_count (regions : List Region)
    (htmlEls : List InteractiveElement) (s : String) :
    countSel (elemsOf (mergeHTMLElements regions htmlEls)) s =
      countSel (elemsOf regions) s +
      countSel (survivors (allSelectors regions) htmlEls) s := by
  cases hf : findUnknownIdx regions with
  | some j =>
    rw [mergeHTMLElements_eq_modify regions htmlEls j hf]
    exact countSel_elemsOf_listModify regions j _ s
      (findUnknownIdx_lt_length regions j hf)
  | none =>
    by_cases ha : survivors (allSelectors regions) htmlEls = []
    · rw [mergeHTMLElements_eq_same regions htmlEls hf ha, ha]
      simp [countSel]
    · rw [mergeHTMLElements_eq_append regions htmlEls hf ha,
        elemsOf_append, countSel_append]
      simp [elemsOf, countSel]

/-- C1 (amended): the merge is the union of both passes deduplicated by
exact locator-expression equality with the tree pass kept on a collision:
for every locator the merged model holds the tree pass's entries unchanged
when the tree pass produced that locator (colliding markup entries are
dropped), and otherwise exactly one entry when the markup pass produced the
locator at all.  A logical element extracted by both passes therefore
collapses to one entry only when the two passes derive the identical locator
string; with different locator strings it appears once per pass. -/
theorem extractDOM_merge_dedup_by_locator :
    (∀ (regions : List Region) (htmlEls : List InteractiveElement) (s : String),
      countSel (elemsOf (mergeHTMLElements regions htmlEls)) s =
        countSel (elemsOf regions) s +
        (if countSel (elemsOf regions) s = 0 ∧
            s ∈ htmlEls.map (fun e => e.selector) then 1 else 0)) ∧
    (∀ (regions : List Region) (htmlEls : List InteractiveElement) (s : String),
      countSel (elemsOf regions) s ≠ 0 →
      (elemsOf (mergeHTMLElements regions htmlEls)).filter
          (fun e => e.selector == s) =
        (elemsOf regions).filter (fun e => e.selector == s)) ∧
    (∀ (snapshot : PageSnapshot) (s : String),
      countSel (elemsOf (extractDOM snapshot).regions) s =
        countSel (elemsOf (treePassRegions snapshot)) s +
        (if countSel (elemsOf (treePassRegions snapshot)) s = 0 ∧
            s ∈ (extractFromHTML snapshot.bodyHTML).map (fun e => e.selector)
         then 1 else 0)) := by
  have hmain : ∀ (regions : List Region) (htmlEls : List InteractiveElement)
      (s : String),
      countSel (elemsOf (mergeHTMLElements regions htmlEls)) s =
        countSel (elemsOf regions) s +
        (if countSel (elemsOf regions) s = 0 ∧
            s ∈ htmlEls.map (fun e => e.selector) then 1 else 0) := by
    intro regions htmlEls s
    rw [mergeHTMLElements_count]
    congr 1
    by_cases h0 : countSel (elemsOf regions) s = 0
    · have hnot : s ∉ allSelectors regions := by
        rw [allSelectors_eq]
        intro hmem
        exact (countSel_ne_zero_iff _ _).mpr hmem h0
      rw [survivors_count_not_mem htmlEls _ s hnot]
      simp [h0]
    · have hmem : s ∈ allSelectors regions := by
        rw [allSelectors_eq]
        exact (countSel_ne_zero_iff _ _).mp h0
      rw [survivors_count_mem htmlEls _ s hmem]
      simp [h0]
  refine ⟨hmain, ?_, ?_⟩
  · intro regions htmlEls s h0
    have hmem : s ∈ allSelectors regions := by
      rw [allSelectors_eq]
      exact (countSel_ne_zero_iff _ _).mp h0
    have hc := survivors_count_mem htmlEls (allSelectors regions) s hmem
    have hfil : (survivors (allSelectors regions) htmlEls).filter
        (fun e => e.selector == s) = [] :=
      List.length_eq_zero.mp hc
    cases hf : findUnknownIdx regions with
    | some j =>
      rw [mergeHTMLElements_eq_modify regions htmlEls j hf]
      exact filter_elemsOf_listModify regions j _ _
        (findUnknownIdx_lt_length regions j hf) hfil
    | none =>
      by_cases ha : survivors (allSelectors regions) htmlEls = []
      · rw [mergeHTMLElements_eq_same regions htmlEls hf ha]
      · rw [mergeHTMLElements_eq_append regions htmlEls hf ha,
          elemsOf_append, List.filter_append]
        simp [elemsOf, hfil]
  · intro snapshot s
    simpa [extractDOM] using
      hmain (treePassRegions snapshot) (extractFromHTML snapshot.bodyHTML) s

/-- C1 witness: tree-priority collision handling at the concrete snapshot,
for the tree pass's Submit locator. -/
theorem extractDOM_merge_dedup_by_locator_witness :
    (elemsOf (mergeHTMLElements (treePassRegions c1Snap)
        (extractFromHTML c1Snap.bodyHTML))).filter
      (fun e => e.selector ==
        "button[aria-label=\"Submit\"], button:has-text(\"Submit\")") =
    (elemsOf (treePassRegions c1Snap)).filter
      (fun e => e.selector ==
        "button[aria-label=\"Submit\"], button:has-text(\"Submit\")") :=
  extractDOM_merge_dedup_by_locator.2.1 (treePassRegions c1Snap)
    (extractFromHTML c1Snap.bodyHTML)
    "button[aria-label=\"Submit\"], button:has-text(\"Submit\")" (by decide)

/-- C1 counterexample: in `c1Snap` the one logical element — the Submit
button — is extracted by both passes, each pass yielding exactly one entry
for it, but with different locator expressions; the merged model returned by
`extractDOM` therefore contains two entries for that element, not exactly
one. -/
theorem extractDOM_cross_pass_duplicate :
    (elemsOf (treePassRegions c1Snap)).map (fun e => (e.selector, e.ariaLabel)) =
      [("button[aria-label=\"Submit\"], button:has-text(\"Submit\")",
        some "Submit")] ∧
    (extractFromHTML c1Snap.bodyHTML).map (fun e => (e.selector, e.ariaLabel)) =
      [("button[aria-label=\"Submit\"]", some "Submit")] ∧
    ((elemsOf (extractDOM c1Snap).regions).filter
      (fun e => e.ariaLabel == some "Submit")).length = 2 ∧
    (extractDOM c1Snap).totalInteractiveElements = 2 :=
  ⟨rfl, rfl, rfl, rfl⟩

end WebMCP
